import Mathlib

set_option linter.unusedSectionVars false

/-!
# Layered numeric stats of `apps/openmw/mwmechanics/stat.cpp`

A shallow embedding of the four value types of `stat.cpp`
(`Stat<T>`, `DynamicStat<T>`, `AttributeValue`, `SkillValue`) and of their
member functions, followed by theorems about them.

Conventions of the embedding.

* A member function that mutates `*this` becomes a function from the old
  object to the new one; the statements of the C++ body are applied in source
  order.
* The template parameter `T` of `Stat<T>` and `DynamicStat<T>` becomes a type
  argument that carries what the template uses: a linear order, a zero, `+`
  and `-`. Nothing is assumed about `+` and `-` in the definitions. The two
  instantiations at the end of `stat.cpp` are read as follows:
  `int` is `Int` (exact; signed overflow is undefined behaviour in C++ and is
  not modelled), and `float` is `F32`, the finite binary32 numbers with every
  `+` and `-` rounded to nearest, ties to even (no NaN, no infinities).
  A theorem that holds for every such `T` holds for both; a theorem that needs
  exact arithmetic says so by asking for an ordered commutative ring.
* `AttributeValue` is given in two readings: with its `float` members as exact
  rationals (`CFloat`), used for properties that rounding does not affect, and
  with its `float` members as binary32 numbers (`AttributeValue32`), used
  where rounding matters.
* `std::max` and `std::min` are written out as the comparisons the standard
  library performs.
-/

namespace MWMechanics

/-- The idealised `float`: an exact rational number. -/
abbrev CFloat : Type := ℚ

/-- The value of `std::max(a, b)`: `(a < b) ? b : a`. -/
def stdMax {T : Type} [LinearOrder T] (a b : T) : T :=
  if a < b then b else a

/-- The value of `std::min(a, b)`: `(b < a) ? b : a`. -/
def stdMin {T : Type} [LinearOrder T] (a b : T) : T :=
  if b < a then b else a

/-- The conversion `static_cast<int>(x)` of a `float`: truncation toward zero. -/
def floatToInt (x : CFloat) : Int :=
  if 0 ≤ x then Int.floor x else Int.ceil x

/-- The conversion `static_cast<float>(n)` of an `int`, also the implicit
conversion of an `int` operand in mixed arithmetic. -/
def intToFloat (n : Int) : CFloat :=
  (n : ℚ)

/-! ## binary32 -/

/-- Rounding of the ratio `p / d` of two natural numbers to the nearest natural
number, a tie going to the even one. -/
def roundHalfEven (p d : Nat) : Nat :=
  if 2 * (p % d) < d then p / d
  else if d < 2 * (p % d) then p / d + 1
  else if (p / d) % 2 = 0 then p / d
  else p / d + 1

/-- Rounding of `p / d` to 24 significant bits: the divisor and the weight `k`
of the result are doubled until the quotient is below `2 ^ 24`, and the
quotient is then rounded to the nearest integer, ties to even. The first
argument bounds the number of doublings. -/
def roundScaled : Nat → Nat → Nat → Nat → Nat
  | 0, p, d, k => roundHalfEven p d * k
  | fuel + 1, p, d, k =>
    if p / d < 2 ^ 24 then roundHalfEven p d * k
    else roundScaled fuel p (2 * d) (2 * k)

/-- Rounding of `p / d`, counted in units of `2 ^ (-149)`, to binary32: below
`2 ^ 24` units (the subnormal numbers and the first normal binade) every whole
number of units is a binary32 number, above it 24 significant bits are kept.
The 300 doublings allowed exceed the 254 binades of binary32. -/
def roundUnits (p d : Nat) : Nat :=
  roundScaled 300 p d 1

/-- A finite binary32 number, given by the whole number of units of
`2 ^ (-149)` (the smallest positive binary32 number) it amounts to. Infinities
and NaN are not part of the model, and `+0` and `-0`, which compare equal, are
not distinguished. -/
structure F32 where
  /-- The value, in units of `2 ^ (-149)`. -/
  units : Int
deriving DecidableEq

namespace F32

/-- The number of units of `2 ^ (-149)` in 1. -/
def scale : Int :=
  ((2 ^ 149 : Nat) : Int)

/-- The binary32 number nearest to the exact value of `n` units, ties to even. -/
def round (n : Int) : F32 :=
  ⟨Int.sign n * (roundUnits n.natAbs 1 : Nat)⟩

/-- The binary32 number nearest to the ratio `p / d`: the value of a `float`
literal such as `30.3f`, which is `ofFrac 303 10`. -/
def ofFrac (p : Int) (d : Nat) : F32 :=
  ⟨Int.sign p * (roundUnits (p.natAbs * 2 ^ 149) d : Nat)⟩

/-- The conversion `static_cast<float>(n)` of an `int`, also the implicit
conversion of an `int` operand in mixed arithmetic: round to nearest. -/
def ofInt (n : Int) : F32 :=
  round (n * scale)

/-- The conversion `static_cast<int>(x)` of a `float`: truncation toward zero. -/
def toInt (x : F32) : Int :=
  if 0 ≤ x.units then x.units / scale else -((-x.units) / scale)

instance instZero : Zero F32 :=
  ⟨⟨0⟩⟩

/-- The `float` addition: the exact sum, rounded. -/
instance instAdd : Add F32 :=
  ⟨fun a b => round (a.units + b.units)⟩

/-- The `float` subtraction: the exact difference, rounded. -/
instance instSub : Sub F32 :=
  ⟨fun a b => round (a.units - b.units)⟩

/-- The order of binary32 numbers is the order of their values. -/
instance instLinearOrder : LinearOrder F32 :=
  LinearOrder.lift' F32.units (fun a b h => by cases a; cases b; simp_all)

/-- The `float` sum `x + y` is the exact sum: the addition does not round. -/
def ExactAdd (x y : F32) : Prop :=
  (x + y).units = x.units + y.units

/-- The conversion of the `int` `n` to `float` is exact. -/
def ExactOfInt (n : Int) : Prop :=
  (ofInt n).units = n * scale

end F32

end MWMechanics

namespace ESM

/-- Modelled from the spec: the save record `ESM::StatState<T>`, declared in
`components/esm/statstate.hpp`, which is not among the sources. The spec lists
its fields: `base`, `currentModified` (as "mod"), `current` for the pooled
variant, `damage` and `restoreModifier` for AttributeValue and `progress` for
SkillValue; the first three have the record's numeric type `T`, the last three
are the floats of AttributeValue and SkillValue. -/
structure StatState (T : Type) where
  /-- The field `mBase`. -/
  mBase : T
  /-- The field `mMod`. -/
  mMod : T
  /-- The field `mCurrent`. -/
  mCurrent : T
  /-- The field `mDamage`. -/
  mDamage : MWMechanics.CFloat
  /-- The field `mRestoreModifier`. -/
  mRestoreModifier : MWMechanics.CFloat
  /-- The field `mProgress`. -/
  mProgress : MWMechanics.CFloat

end ESM

namespace MWMechanics

/-! ## `Stat<T>` -/

/-- The data members of `Stat<T>`. -/
structure Stat (T : Type) where
  /-- The member `mBase`. -/
  mBase : T
  /-- The member `mModified`. -/
  mModified : T
  /-- The member `mCurrentModified`. -/
  mCurrentModified : T

namespace Stat

variable {T : Type} [LinearOrder T] [Zero T] [Add T] [Sub T]

/-- The constructor `Stat<T>::Stat()`. -/
def new : Stat T :=
  { mBase := 0, mModified := 0, mCurrentModified := 0 }

/-- The constructor `Stat<T>::Stat(T base)`. -/
def ofBase (base : T) : Stat T :=
  { mBase := base, mModified := base, mCurrentModified := base }

/-- The constructor `Stat<T>::Stat(T base, T modified)`. -/
def ofBaseModified (base modified : T) : Stat T :=
  { mBase := base, mModified := modified, mCurrentModified := modified }

/-- The getter `Stat<T>::getBase`. -/
def getBase (s : Stat T) : T :=
  s.mBase

/-- The getter `Stat<T>::getModified`: `std::max(static_cast<T>(0), mModified)`. -/
def getModified (s : Stat T) : T :=
  stdMax 0 s.mModified

/-- The getter `Stat<T>::getCurrentModified`. -/
def getCurrentModified (s : Stat T) : T :=
  s.mCurrentModified

/-- The getter `Stat<T>::getModifier`. -/
def getModifier (s : Stat T) : T :=
  s.mModified - s.mBase

/-- The getter `Stat<T>::getCurrentModifier`. -/
def getCurrentModifier (s : Stat T) : T :=
  s.mCurrentModified - s.mModified

/-- The member function `Stat<T>::set`. -/
def set (s : Stat T) (value : T) : Stat T :=
  let diff := value - s.mBase
  { mBase := value, mModified := value, mCurrentModified := s.mCurrentModified + diff }

/-- The member function `Stat<T>::setBase`. -/
def setBase (s : Stat T) (value : T) : Stat T :=
  let diff := value - s.mBase
  { mBase := value, mModified := s.mModified + diff,
    mCurrentModified := s.mCurrentModified + diff }

/-- The member function `Stat<T>::setModified`. The two branches recompute
`value` and `diff` as the source does. -/
def setModified (s : Stat T) (value min max : T) : Stat T :=
  let diff := value - s.mModified
  if s.mBase + diff < min then
    let value1 := min + (s.mModified - s.mBase)
    let diff1 := value1 - s.mModified
    { mBase := s.mBase + diff1, mModified := value1,
      mCurrentModified := s.mCurrentModified + diff1 }
  else if s.mBase + diff > max then
    let value2 := max + (s.mModified - s.mBase)
    let diff2 := value2 - s.mModified
    { mBase := s.mBase + diff2, mModified := value2,
      mCurrentModified := s.mCurrentModified + diff2 }
  else
    { mBase := s.mBase + diff, mModified := value,
      mCurrentModified := s.mCurrentModified + diff }

/-- The member function `Stat<T>::setCurrentModified`. -/
def setCurrentModified (s : Stat T) (value : T) : Stat T :=
  { s with mCurrentModified := value }

/-- The member function `Stat<T>::setModifier`. -/
def setModifier (s : Stat T) (modifier : T) : Stat T :=
  { s with mModified := s.mBase + modifier }

/-- The member function `Stat<T>::setCurrentModifier`. -/
def setCurrentModifier (s : Stat T) (modifier : T) : Stat T :=
  { s with mCurrentModified := s.mModified + modifier }

/-- The member function `Stat<T>::writeState`: it assigns `mBase` and `mMod` of
the record it is given and leaves the other fields of the record alone. -/
def writeState (s : Stat T) (state : ESM.StatState T) : ESM.StatState T :=
  { state with mBase := s.mBase, mMod := s.mCurrentModified }

/-- The member function `Stat<T>::readState`. -/
def readState (_s : Stat T) (state : ESM.StatState T) : Stat T :=
  { mBase := state.mBase, mModified := state.mBase, mCurrentModified := state.mMod }

end Stat

/-! ## `DynamicStat<T>` -/

/-- The data members of `DynamicStat<T>`. -/
structure DynamicStat (T : Type) where
  /-- The member `mStatic`. -/
  mStatic : Stat T
  /-- The member `mCurrent`. -/
  mCurrent : T

/-- Modelled from the spec: the default value of the parameter
`allowIncreaseAboveModified` of `DynamicStat<T>::setCurrent`, given in the
declaration in `stat.hpp`, which is not among the sources. The spec calls the
flags explicit overrides that are absent unless passed, and `setModifier` calls
`setCurrent` with two arguments only. -/
def defaultAllowIncreaseAboveModified : Bool :=
  false

namespace DynamicStat

variable {T : Type} [LinearOrder T] [Zero T] [Add T] [Sub T]

/-- The constructor `DynamicStat<T>::DynamicStat()`. -/
def new : DynamicStat T :=
  { mStatic := Stat.ofBase 0, mCurrent := 0 }

/-- The constructor `DynamicStat<T>::DynamicStat(T base)`. -/
def ofBase (base : T) : DynamicStat T :=
  { mStatic := Stat.ofBase base, mCurrent := base }

/-- The constructor `DynamicStat<T>::DynamicStat(T base, T modified, T current)`. -/
def ofBaseModifiedCurrent (base modified current : T) : DynamicStat T :=
  { mStatic := Stat.ofBaseModified base modified, mCurrent := current }

/-- The getter `DynamicStat<T>::getBase`. -/
def getBase (d : DynamicStat T) : T :=
  d.mStatic.getBase

/-- The getter `DynamicStat<T>::getModified`. -/
def getModified (d : DynamicStat T) : T :=
  d.mStatic.getModified

/-- The getter `DynamicStat<T>::getCurrentModified`. -/
def getCurrentModified (d : DynamicStat T) : T :=
  d.mStatic.getCurrentModified

/-- The getter `DynamicStat<T>::getCurrent`. -/
def getCurrent (d : DynamicStat T) : T :=
  d.mCurrent

/-- The member function `DynamicStat<T>::set`. -/
def set (d : DynamicStat T) (value : T) : DynamicStat T :=
  { mStatic := d.mStatic.set value, mCurrent := value }

/-- The member function `DynamicStat<T>::setBase`. -/
def setBase (d : DynamicStat T) (value : T) : DynamicStat T :=
  let d1 : DynamicStat T := { d with mStatic := d.mStatic.setBase value }
  if d1.mCurrent > d1.getModified then { d1 with mCurrent := d1.getModified } else d1

/-- The member function `DynamicStat<T>::setModified`. -/
def setModified (d : DynamicStat T) (value min max : T) : DynamicStat T :=
  let d1 : DynamicStat T := { d with mStatic := d.mStatic.setModified value min max }
  if d1.mCurrent > d1.getModified then { d1 with mCurrent := d1.getModified } else d1

/-- The member function `DynamicStat<T>::setCurrentModified`. -/
def setCurrentModified (d : DynamicStat T) (value : T) : DynamicStat T :=
  { d with mStatic := d.mStatic.setCurrentModified value }

/-- The member function `DynamicStat<T>::setCurrent`, branch by branch; the
early `return` leaves the object as it is, as does falling off the end. -/
def setCurrent (d : DynamicStat T) (value : T) (allowDecreaseBelowZero : Bool)
    (allowIncreaseAboveModified : Bool) : DynamicStat T :=
  if value > d.mCurrent then
    if value ≤ d.getModified ∨ allowIncreaseAboveModified = true then
      { d with mCurrent := value }
    else if d.mCurrent > d.getModified then
      d
    else if value > d.getModified then
      { d with mCurrent := d.getModified }
    else
      d
  else if value > 0 ∨ allowDecreaseBelowZero = true then
    { d with mCurrent := value }
  else if d.mCurrent > 0 then
    { d with mCurrent := 0 }
  else
    d

/-- The member function `DynamicStat<T>::setModifier`; the call of `setCurrent`
leaves the third argument to its default. -/
def setModifier (d : DynamicStat T) (modifier : T)
    (allowCurrentToDecreaseBelowZero : Bool) : DynamicStat T :=
  let diff := modifier - d.mStatic.getModifier
  let d1 : DynamicStat T := { d with mStatic := d.mStatic.setModifier modifier }
  d1.setCurrent (d1.getCurrent + diff) allowCurrentToDecreaseBelowZero
    defaultAllowIncreaseAboveModified

/-- The member function `DynamicStat<T>::setCurrentModifier`. -/
def setCurrentModifier (d : DynamicStat T) (modifier : T)
    (allowCurrentToDecreaseBelowZero : Bool) : DynamicStat T :=
  let diff := modifier - d.mStatic.getCurrentModifier
  let d1 : DynamicStat T := { d with mStatic := d.mStatic.setCurrentModifier modifier }
  d1.setCurrent (d1.getCurrent + diff) allowCurrentToDecreaseBelowZero
    (decide (modifier > 0))

/-- The member function `DynamicStat<T>::writeState`. -/
def writeState (d : DynamicStat T) (state : ESM.StatState T) : ESM.StatState T :=
  { d.mStatic.writeState state with mCurrent := d.mCurrent }

/-- The member function `DynamicStat<T>::readState`. -/
def readState (d : DynamicStat T) (state : ESM.StatState T) : DynamicStat T :=
  { mStatic := d.mStatic.readState state, mCurrent := state.mCurrent }

/-- The invariant the spec gives for the pooled stat:
`0 ≤ current ≤ getModified()`. -/
def Inv (d : DynamicStat T) : Prop :=
  0 ≤ d.getCurrent ∧ d.getCurrent ≤ d.getModified

end DynamicStat

/-! ## `AttributeValue` and `SkillValue` -/

/-- The data members of `AttributeValue`: an `int` base and three `float`s. -/
structure AttributeValue where
  /-- The member `mBase`. -/
  mBase : Int
  /-- The member `mModifier`. -/
  mModifier : CFloat
  /-- The member `mRestoreModifier`. -/
  mRestoreModifier : CFloat
  /-- The member `mDamage`. -/
  mDamage : CFloat

namespace AttributeValue

/-- The constructor `AttributeValue::AttributeValue()`. -/
def new : AttributeValue :=
  { mBase := 0, mModifier := 0, mRestoreModifier := 0, mDamage := 0 }

/-- The operand of the cast in `AttributeValue::getModified`:
`mBase - mDamage + mModifier + mRestoreModifier`, computed in `float`. -/
def modifiedSum (a : AttributeValue) : CFloat :=
  intToFloat a.mBase - a.mDamage + a.mModifier + a.mRestoreModifier

/-- The getter `AttributeValue::getModified`:
`std::max(0, static_cast<int>(mBase - mDamage + mModifier + mRestoreModifier))`. -/
def getModified (a : AttributeValue) : Int :=
  stdMax 0 (floatToInt a.modifiedSum)

/-- The getter `AttributeValue::getBase`. -/
def getBase (a : AttributeValue) : Int :=
  a.mBase

/-- The getter `AttributeValue::getModifier`. -/
def getModifier (a : AttributeValue) : CFloat :=
  a.mModifier

/-- The getter `AttributeValue::getRestoreModifier`. -/
def getRestoreModifier (a : AttributeValue) : CFloat :=
  a.mRestoreModifier

/-- The getter `AttributeValue::getDamage`. -/
def getDamage (a : AttributeValue) : CFloat :=
  a.mDamage

/-- The member function `AttributeValue::setBase`. -/
def setBase (a : AttributeValue) (base : Int) : AttributeValue :=
  { a with mBase := stdMax 0 base }

/-- The member function `AttributeValue::setModifier`. -/
def setModifier (a : AttributeValue) (positive negative : CFloat) : AttributeValue :=
  let a1 : AttributeValue := { a with mModifier := positive - negative }
  if a1.mRestoreModifier > negative then { a1 with mRestoreModifier := negative } else a1

/-- The member function `AttributeValue::damage`. -/
def damage (a : AttributeValue) (damage : CFloat) : AttributeValue :=
  { a with mDamage := a.mDamage + stdMin damage (intToFloat a.getModified) }

/-- The member function `AttributeValue::restore`. As in the source,
`leftOverAmount` is read in the condition only and `amount` is what is added
to `mRestoreModifier`. -/
def restore (a : AttributeValue) (amount : CFloat) : AttributeValue :=
  let leftOverAmount := amount - a.mDamage
  let a1 : AttributeValue := { a with mDamage := a.mDamage - stdMin a.mDamage amount }
  if a1.mModifier < 0 ∧ leftOverAmount > 0 then
    let a2 : AttributeValue := { a1 with mRestoreModifier := a1.mRestoreModifier + amount }
    if a2.mRestoreModifier > -a2.mModifier then
      { a2 with mRestoreModifier := -a2.mModifier }
    else
      a2
  else
    a1

/-- The member function `AttributeValue::writeState`. The record is a
`StatState<int>`, so the assignment `state.mMod = mModifier` converts the
`float` to `int`. -/
def writeState (a : AttributeValue) (state : ESM.StatState Int) : ESM.StatState Int :=
  { state with
    mBase := a.mBase
    mMod := floatToInt a.mModifier
    mDamage := a.mDamage
    mRestoreModifier := a.mRestoreModifier }

/-- The member function `AttributeValue::readState`. -/
def readState (_a : AttributeValue) (state : ESM.StatState Int) : AttributeValue :=
  { mBase := state.mBase
    mModifier := intToFloat state.mMod
    mDamage := state.mDamage
    mRestoreModifier := state.mRestoreModifier }

/-- The bounds the spec's data model gives for an `AttributeValue`:
`base ≥ 0`, `damage ≥ 0`, `restoreModifier ≥ 0`, and
`restoreModifier ≤ -modifier` whenever `modifier < 0`. -/
def Bounds (a : AttributeValue) : Prop :=
  0 ≤ a.mBase ∧ 0 ≤ a.mDamage ∧ 0 ≤ a.mRestoreModifier ∧
    (a.mModifier < 0 → a.mRestoreModifier ≤ -a.mModifier)

end AttributeValue

/-- The class `SkillValue`, derived from `AttributeValue`, with its member
`mProgress`. -/
structure SkillValue extends AttributeValue where
  /-- The member `mProgress`. -/
  mProgress : CFloat

namespace SkillValue

/-- The constructor `SkillValue::SkillValue()`. -/
def new : SkillValue :=
  { toAttributeValue := AttributeValue.new, mProgress := 0 }

/-- The getter `SkillValue::getProgress`. -/
def getProgress (k : SkillValue) : CFloat :=
  k.mProgress

/-- The member function `SkillValue::setProgress`. -/
def setProgress (k : SkillValue) (progress : CFloat) : SkillValue :=
  { k with mProgress := progress }

/-- The member function `SkillValue::writeState`. -/
def writeState (k : SkillValue) (state : ESM.StatState Int) : ESM.StatState Int :=
  { k.toAttributeValue.writeState state with mProgress := k.mProgress }

/-- The member function `SkillValue::readState`. -/
def readState (k : SkillValue) (state : ESM.StatState Int) : SkillValue :=
  { toAttributeValue := k.toAttributeValue.readState state, mProgress := state.mProgress }

end SkillValue

/-! ## `AttributeValue` in binary32 -/

/-- The data members of `AttributeValue`, the three `float`s as binary32
numbers. -/
structure AttributeValue32 where
  /-- The member `mBase`. -/
  mBase : Int
  /-- The member `mModifier`. -/
  mModifier : F32
  /-- The member `mRestoreModifier`. -/
  mRestoreModifier : F32
  /-- The member `mDamage`. -/
  mDamage : F32
deriving DecidableEq

namespace AttributeValue32

/-- The constructor `AttributeValue::AttributeValue()`. -/
def new : AttributeValue32 :=
  { mBase := 0, mModifier := 0, mRestoreModifier := 0, mDamage := 0 }

/-- The operand of the cast in `AttributeValue::getModified`:
`mBase - mDamage + mModifier + mRestoreModifier`, where `mBase` is converted to
`float` and each operation, from left to right, is rounded. -/
def modifiedSum (a : AttributeValue32) : F32 :=
  F32.ofInt a.mBase - a.mDamage + a.mModifier + a.mRestoreModifier

/-- The getter `AttributeValue::getModified`:
`std::max(0, static_cast<int>(mBase - mDamage + mModifier + mRestoreModifier))`. -/
def getModified (a : AttributeValue32) : Int :=
  stdMax 0 (F32.toInt a.modifiedSum)

/-- The getter `AttributeValue::getDamage`. -/
def getDamage (a : AttributeValue32) : F32 :=
  a.mDamage

/-- The member function `AttributeValue::setBase`. -/
def setBase (a : AttributeValue32) (base : Int) : AttributeValue32 :=
  { a with mBase := stdMax 0 base }

/-- The member function `AttributeValue::damage`. -/
def damage (a : AttributeValue32) (damage : F32) : AttributeValue32 :=
  { a with mDamage := a.mDamage + stdMin damage (F32.ofInt a.getModified) }

/-- The sum that `getModified()` computes in `float` is the exact value of
`base - damage + modifier + restoreModifier`: no rounding error is left in
it. -/
def SumExact (a : AttributeValue32) : Prop :=
  a.modifiedSum.units
    = a.mBase * F32.scale - a.mDamage.units + a.mModifier.units + a.mRestoreModifier.units

end AttributeValue32

/-! ## Specification-side definitions -/

/-- The base of the reading of `setModified` as a clamped `setBase`:
`oldBase + (value - oldModified)`, replaced by `min` if it is below `min` and
otherwise by `max` if it is above `max`. This definition follows the wording of
the property it is compared with, not the source. -/
def Stat.clampedBase {T : Type} [LinearOrder T] [Zero T] [Add T] [Sub T] (s : Stat T)
    (value min max : T) : T :=
  if s.mBase + (value - s.mModified) < min then min
  else if max < s.mBase + (value - s.mModified) then max
  else s.mBase + (value - s.mModified)

/-! ## Theorems about `Stat<T>` -/

section StatTheorems

variable {T : Type} [LinearOrderedCommRing T]

/-- C1: for every scalar stat and every value `v`, `setBase(v)` makes
`getBase()` return `v` and leaves `getModifier()` and `getCurrentModifier()` as
they were; for `Stat<int>`, `Stat(10)` after `setModifier(4)` has
`getModified() == 14`, and after a further `setBase(12)` has
`getModifier() == 4` and `getModified() == 16`. -/
theorem Stat.setBase_keeps_modifiers (s : Stat T) (v : T) :
    (s.setBase v).getBase = v ∧
    (s.setBase v).getModifier = s.getModifier ∧
    (s.setBase v).getCurrentModifier = s.getCurrentModifier ∧
    ((Stat.ofBase (10 : Int)).setModifier 4).getModified = 14 ∧
    (((Stat.ofBase (10 : Int)).setModifier 4).setBase 12).getModifier = 4 ∧
    (((Stat.ofBase (10 : Int)).setModifier 4).setBase 12).getModified = 16 := by
  refine ⟨rfl, ?_, ?_, by decide, by decide, by decide⟩
  · simp only [Stat.setBase, Stat.getModifier]
    ring
  · simp only [Stat.setBase, Stat.getCurrentModifier]
    ring

/-- In exact arithmetic and for `min ≤ max`, after `setModified(value, min,
max)` the base lies in `[min, max]`: it is `min` when
`oldBase + (value - oldModified)` is below `min`, `max` when that sum is above
`max`, and otherwise the internal modified value is `value` and the base is
the sum. -/
theorem Stat.setModified_exact (s : Stat T) (value min max : T) (h : min ≤ max) :
    min ≤ (s.setModified value min max).getBase ∧
    (s.setModified value min max).getBase ≤ max ∧
    (s.mBase + (value - s.mModified) < min →
      (s.setModified value min max).getBase = min) ∧
    (max < s.mBase + (value - s.mModified) →
      (s.setModified value min max).getBase = max) ∧
    (min ≤ s.mBase + (value - s.mModified) → s.mBase + (value - s.mModified) ≤ max →
      (s.setModified value min max).mModified = value ∧
      (s.setModified value min max).getBase = s.mBase + (value - s.mModified)) := by
  simp only [Stat.setModified, Stat.getBase, gt_iff_lt]
  by_cases h1 : s.mBase + (value - s.mModified) < min
  · have e : s.mBase + (min + (s.mModified - s.mBase) - s.mModified) = min := by ring
    simp only [if_pos h1, e]
    exact ⟨le_refl _, h, fun _ => trivial, fun h2 => absurd (lt_trans h1 (lt_of_le_of_lt h h2)) (lt_irrefl _),
      fun h2 => absurd h1 (not_lt.mpr h2)⟩
  · by_cases h2 : max < s.mBase + (value - s.mModified)
    · have e : s.mBase + (max + (s.mModified - s.mBase) - s.mModified) = max := by ring
      simp only [if_neg h1, if_pos h2, e]
      exact ⟨h, le_refl _, fun h3 => absurd h3 h1, fun _ => trivial,
        fun _ h3 => absurd h2 (not_lt.mpr h3)⟩
    · simp only [if_neg h1, if_neg h2]
      exact ⟨not_lt.mp h1, not_lt.mp h2, fun h3 => absurd h3 h1, fun h3 => absurd h3 h2,
        fun _ _ => ⟨trivial, trivial⟩⟩

end StatTheorems

/-! ## `setModified`, for every instantiation and in exact arithmetic -/

section SetModifiedTheorems

set_option maxRecDepth 100000

variable {T : Type} [LinearOrder T] [Zero T] [Add T] [Sub T]
variable {R : Type} [LinearOrderedCommRing R]

/-- C2, counterexample: on `Stat<float>`, `Stat(30.3f)` after
`setModifier(100)` has base 30.2999992 and modified 130.300003; with
`0 ≤ 100`, `setModified(0, 0, 100)` finds `base + (0 - modified) = -100` below
`min = 0`, recomputes `value = 0 + (modified - base) = 100` (rounded) and
`diff = 100 - modified = -30.300003` (rounded), and leaves the base at
`-2^(-18)`, about `-3.8e-6`: below `min`, not equal to it. -/
theorem Stat.setModified_rounding_counterexample :
    (0 : F32) ≤ F32.ofFrac 100 1 ∧
    ((Stat.ofBase (F32.ofFrac 303 10)).setModifier (F32.ofFrac 100 1)).mBase
      + (0 - ((Stat.ofBase (F32.ofFrac 303 10)).setModifier (F32.ofFrac 100 1)).mModified)
      < 0 ∧
    (((Stat.ofBase (F32.ofFrac 303 10)).setModifier (F32.ofFrac 100 1)).setModified
      0 0 (F32.ofFrac 100 1)).getBase = F32.ofFrac (-1) 262144 ∧
    (((Stat.ofBase (F32.ofFrac 303 10)).setModifier (F32.ofFrac 100 1)).setModified
      0 0 (F32.ofFrac 100 1)).getBase < 0 ∧
    (((Stat.ofBase (F32.ofFrac 303 10)).setModifier (F32.ofFrac 100 1)).setModified
      0 0 (F32.ofFrac 100 1)).getBase ≠ 0 := by
  decide

/-- C2, amended. For every instantiation of `Stat<T>`: when
`oldBase + (value - oldModified)`, as the stat computes it, is neither below
`min` nor above `max`, after `setModified(value, min, max)` the internal
modified value is `value`, the base is that sum, and `min ≤ getBase() ≤ max`.
In exact arithmetic (`Stat<int>`) and for `min ≤ max`, the base always ends in
`[min, max]`: it is exactly `min` when the sum is below `min`, exactly `max`
when the sum is above `max`, and otherwise the internal modified value is
`value` and the base is the sum. -/
theorem Stat.setModified_base_in_range (t : Stat T) (v lo hi : T)
    (s : Stat R) (value min max : R) (h : min ≤ max) :
    (¬ t.mBase + (v - t.mModified) < lo → ¬ hi < t.mBase + (v - t.mModified) →
      (t.setModified v lo hi).mModified = v ∧
      (t.setModified v lo hi).getBase = t.mBase + (v - t.mModified) ∧
      lo ≤ (t.setModified v lo hi).getBase ∧
      (t.setModified v lo hi).getBase ≤ hi) ∧
    min ≤ (s.setModified value min max).getBase ∧
    (s.setModified value min max).getBase ≤ max ∧
    (s.mBase + (value - s.mModified) < min →
      (s.setModified value min max).getBase = min) ∧
    (max < s.mBase + (value - s.mModified) →
      (s.setModified value min max).getBase = max) ∧
    (min ≤ s.mBase + (value - s.mModified) → s.mBase + (value - s.mModified) ≤ max →
      (s.setModified value min max).mModified = value ∧
      (s.setModified value min max).getBase = s.mBase + (value - s.mModified)) := by
  refine ⟨?_, Stat.setModified_exact s value min max h⟩
  intro h1 h2
  simp only [Stat.setModified, Stat.getBase, gt_iff_lt, if_neg h1, if_neg h2]
  exact ⟨trivial, trivial, not_lt.mp h1, not_lt.mp h2⟩

/-- Witness of C2 (amended): on `Stat<float>`, base 30.2999992 and modified
130.300003 with `setModified(150, 0, 100)`, where the sum is in range; on
`Stat<int>`, base 50 and modified 60 with `setModified(200, 0, 100)`, where
`0 ≤ 100` and the base is clamped to 100. -/
theorem Stat.setModified_base_in_range_witness :
    (0 : Int) ≤ 100 ∧
    (((Stat.ofBase (F32.ofFrac 303 10)).setModifier (F32.ofFrac 100 1)).setModified
      (F32.ofFrac 150 1) 0 (F32.ofFrac 100 1)).mModified = F32.ofFrac 150 1 ∧
    ((Stat.ofBaseModified (50 : Int) 60).setModified 200 0 100).getBase = 100 :=
  ⟨by decide,
    ((Stat.setModified_base_in_range
      ((Stat.ofBase (F32.ofFrac 303 10)).setModifier (F32.ofFrac 100 1))
      (F32.ofFrac 150 1) 0 (F32.ofFrac 100 1)
      (Stat.ofBaseModified (50 : Int) 60) 200 0 100 (by decide)).1
      (by decide) (by decide)).1,
    (Stat.setModified_base_in_range
      ((Stat.ofBase (F32.ofFrac 303 10)).setModifier (F32.ofFrac 100 1))
      (F32.ofFrac 150 1) 0 (F32.ofFrac 100 1)
      (Stat.ofBaseModified (50 : Int) 60) 200 0 100 (by decide)).2.2.2.2.1 (by decide)⟩

end SetModifiedTheorems

/-! ## Auxiliary facts -/

section Auxiliary

variable {T : Type} [LinearOrder T] [Zero T] [Add T] [Sub T]

/-- In a linear order `std::max` is the maximum. -/
theorem stdMax_eq_max {S : Type} [LinearOrder S] (a b : S) : stdMax a b = max a b := by
  unfold stdMax
  split_ifs with h
  · exact (max_eq_right (le_of_lt h)).symm
  · exact (max_eq_left (not_lt.mp h)).symm

/-- In a linear order `std::min` is the minimum. -/
theorem stdMin_eq_min {S : Type} [LinearOrder S] (a b : S) : stdMin a b = min a b := by
  unfold stdMin
  split_ifs with h
  · exact (min_eq_right (le_of_lt h)).symm
  · exact (min_eq_left (not_lt.mp h)).symm

/-- The ceiling `getModified()` of a pooled stat is never negative. -/
theorem DynamicStat.ceiling_nonneg (d : DynamicStat T) : 0 ≤ d.getModified := by
  simp only [DynamicStat.getModified, Stat.getModified, stdMax_eq_max]
  exact le_max_left _ _

/-- The call `setCurrent(x, a, b)` changes nothing when `current` is already
`x`, when `x` is an increase that is refused with `current` at or above the
ceiling, or when `x` is a decrease that is refused with `current` at or below
zero. -/
theorem DynamicStat.setCurrent_fixed (d : DynamicStat T) (x : T) (a b : Bool)
    (h : d.mCurrent = x ∨
      (d.mCurrent < x ∧ ¬(x ≤ d.getModified ∨ b = true) ∧ d.getModified ≤ d.mCurrent) ∨
      (¬ d.mCurrent < x ∧ ¬(0 < x ∨ a = true) ∧ d.mCurrent ≤ 0)) :
    d.setCurrent x a b = d := by
  obtain ⟨s, c⟩ := d
  simp only [DynamicStat.setCurrent, DynamicStat.getModified, gt_iff_lt] at h ⊢
  rcases h with h | ⟨h1, h2, h3⟩ | ⟨h1, h2, h3⟩
  · subst h
    rw [if_neg (lt_irrefl _)]
    by_cases h4 : 0 < c ∨ a = true
    · rw [if_pos h4]
    · rw [if_neg h4, if_neg (fun h5 => h4 (Or.inl h5))]
  · rw [if_pos h1, if_neg h2]
    by_cases h4 : s.getModified < c
    · rw [if_pos h4]
    · have e : s.getModified = c := le_antisymm h3 (not_lt.mp h4)
      rw [if_neg h4, e, if_pos h1]
  · rw [if_neg h1, if_neg h2, if_neg (not_lt.mpr h3)]

/-- Without override flags `setCurrent(v)` re-establishes the invariant from
any state with `0 ≤ current` in which an increase starts at or below the
ceiling and a decrease to a positive value ends at or below it. -/
theorem DynamicStat.setCurrent_inv_of (d : DynamicStat T) (v : T)
    (h0 : 0 ≤ d.mCurrent)
    (hup : d.mCurrent < v → d.mCurrent ≤ d.getModified)
    (hdown : v ≤ d.mCurrent → 0 < v → v ≤ d.getModified) :
    (d.setCurrent v false false).Inv := by
  have hM := d.ceiling_nonneg
  obtain ⟨s, c⟩ := d
  simp only [DynamicStat.Inv, DynamicStat.setCurrent, DynamicStat.getModified,
    DynamicStat.getCurrent, gt_iff_lt, Bool.false_eq_true, or_false] at h0 hup hdown hM ⊢
  by_cases h1 : c < v
  · rw [if_pos h1]
    by_cases h2 : v ≤ s.getModified
    · rw [if_pos h2]
      exact ⟨le_of_lt (lt_of_le_of_lt h0 h1), h2⟩
    · rw [if_neg h2, if_neg (not_lt.mpr (hup h1)), if_pos (not_le.mp h2)]
      exact ⟨hM, le_refl _⟩
  · rw [if_neg h1]
    by_cases h2 : 0 < v
    · rw [if_pos h2]
      exact ⟨le_of_lt h2, hdown (not_lt.mp h1) h2⟩
    · rw [if_neg h2]
      by_cases h3 : 0 < c
      · rw [if_pos h3]
        exact ⟨le_refl _, hM⟩
      · rw [if_neg h3]
        have e : c = 0 := le_antisymm (not_lt.mp h3) h0
        rw [e]
        exact ⟨le_refl _, hM⟩

/-- After `mCurrent > getModified()` has been tested and `mCurrent` lowered to
`getModified()`, the invariant holds whenever `current` was not negative. -/
theorem DynamicStat.inv_after_clamp (d : DynamicStat T) (h0 : 0 ≤ d.mCurrent) :
    (if d.mCurrent > d.getModified then { d with mCurrent := d.getModified } else d).Inv := by
  have hM := d.ceiling_nonneg
  by_cases h : d.mCurrent > d.getModified
  · rw [if_pos h]
    exact ⟨hM, le_refl _⟩
  · rw [if_neg h]
    exact ⟨h0, not_lt.mp h⟩

end Auxiliary

/-! ## Theorems about `DynamicStat<T>` -/

section DynamicStatTheorems

set_option maxRecDepth 100000

variable {T : Type} [LinearOrder T] [Zero T] [Add T] [Sub T]
variable {R : Type} [LinearOrderedCommRing R]

/-- In exact arithmetic `setModifier(m, false)` preserves the invariant
`0 ≤ getCurrent() ≤ getModified()`. -/
theorem DynamicStat.setModifier_inv_exact (e : DynamicStat R) (m : R) (h : e.Inv) :
    (e.setModifier m false).Inv := by
  obtain ⟨h0, h1⟩ := h
  simp only [DynamicStat.getCurrent, DynamicStat.getModified, Stat.getModified,
    stdMax_eq_max] at h0 h1
  simp only [DynamicStat.setModifier, defaultAllowIncreaseAboveModified]
  apply DynamicStat.setCurrent_inv_of
  · exact h0
  · intro h2
    simp only [DynamicStat.getCurrent, DynamicStat.getModified, Stat.getModified,
      Stat.setModifier, Stat.getModifier, stdMax_eq_max] at h2 ⊢
    refine le_trans h1 (max_le_max (le_refl _) ?_)
    linarith
  · intro h2 h3
    simp only [DynamicStat.getCurrent, DynamicStat.getModified, Stat.getModified,
      Stat.setModifier, Stat.getModifier, stdMax_eq_max] at h2 h3 ⊢
    rcases le_total e.mStatic.mModified 0 with h4 | h4
    · rw [max_eq_left h4] at h1
      linarith
    · rw [max_eq_right h4] at h1
      refine le_trans ?_ (le_max_right _ _)
      linarith

/-- C3, counterexample: on `DynamicStat<float>`, `DynamicStat(30.3f)` after
`setModifier(100, false)` has base 30.2999992, modified 130.300003 and current
130.300003 and satisfies the invariant; `setModifier(0, false)` then computes
`diff = 0 - (modified - base) = -100` (the difference 100.0000038 rounds to
100), sets modified to `base + 0 = 30.2999992` and current to
`130.300003 - 100 = 30.3000031`, which is above `getModified()`, although no
override flag was passed. -/
theorem DynamicStat.inv_rounding_counterexample :
    ((DynamicStat.ofBase (F32.ofFrac 303 10)).setModifier (F32.ofFrac 100 1) false).Inv ∧
    (((DynamicStat.ofBase (F32.ofFrac 303 10)).setModifier (F32.ofFrac 100 1)
      false).setModifier 0 false).getModified = F32.ofFrac 303 10 ∧
    (((DynamicStat.ofBase (F32.ofFrac 303 10)).setModifier (F32.ofFrac 100 1)
      false).setModifier 0 false).getModified
      < (((DynamicStat.ofBase (F32.ofFrac 303 10)).setModifier (F32.ofFrac 100 1)
        false).setModifier 0 false).getCurrent ∧
    ¬ (((DynamicStat.ofBase (F32.ofFrac 303 10)).setModifier (F32.ofFrac 100 1)
      false).setModifier 0 false).Inv := by
  unfold DynamicStat.Inv
  decide

/-- C3, amended: the invariant `0 ≤ getCurrent() ≤ getModified()` of the pooled
stat is preserved when no override flag is passed. For every instantiation of
`DynamicStat<T>`, from a state that satisfies it, `setCurrent(v, false,
false)`, `setBase(v)`, `setModified(v, min, max)`, `setCurrentModified(v)`, and
`set(w)` with `w ≥ 0`, each lead to a state that satisfies it; in exact
arithmetic (`DynamicStat<int>`) so does `setModifier(m, false)`. -/
theorem DynamicStat.inv_preserved (d : DynamicStat T) (v min max w : T)
    (e : DynamicStat R) (m : R)
    (h : d.Inv) (hw : 0 ≤ w) (he : e.Inv) :
    (d.setCurrent v false false).Inv ∧
    (d.setBase v).Inv ∧
    (d.setModified v min max).Inv ∧
    (d.setCurrentModified v).Inv ∧
    (d.set w).Inv ∧
    (e.setModifier m false).Inv := by
  obtain ⟨h0, h1⟩ := h
  refine ⟨?_, ?_, ?_, ?_, ?_, DynamicStat.setModifier_inv_exact e m he⟩
  · exact d.setCurrent_inv_of v h0 (fun _ => h1) (fun h2 _ => le_trans h2 h1)
  · exact DynamicStat.inv_after_clamp { d with mStatic := d.mStatic.setBase v } h0
  · exact DynamicStat.inv_after_clamp { d with mStatic := d.mStatic.setModified v min max } h0
  · exact ⟨h0, h1⟩
  · simp only [DynamicStat.Inv, DynamicStat.set, DynamicStat.getCurrent,
      DynamicStat.getModified, Stat.getModified, Stat.set, stdMax_eq_max]
    exact ⟨hw, le_max_right _ _⟩

/-- Witness of C3 (amended): on `DynamicStat<float>`, base 30.2999992, modified
130.300003, current 130.300003 satisfies the invariant, `0 ≤ 5`, and
`setBase(5)` leads to a state that satisfies it; on `DynamicStat<int>`, base
10, modified 20, current 15 satisfies the invariant and so does the state
after `setModifier(-8, false)`. -/
theorem DynamicStat.inv_preserved_witness :
    ((DynamicStat.ofBase (F32.ofFrac 303 10)).setModifier (F32.ofFrac 100 1) false).Inv ∧
    (0 : F32) ≤ F32.ofFrac 5 1 ∧
    (DynamicStat.ofBaseModifiedCurrent (10 : Int) 20 15).Inv ∧
    (((DynamicStat.ofBase (F32.ofFrac 303 10)).setModifier (F32.ofFrac 100 1) false).setBase
      (F32.ofFrac 5 1)).Inv ∧
    ((DynamicStat.ofBaseModifiedCurrent (10 : Int) 20 15).setModifier (-8) false).Inv :=
  ⟨⟨by decide, by decide⟩, by decide, ⟨by decide, by decide⟩,
    (DynamicStat.inv_preserved
      ((DynamicStat.ofBase (F32.ofFrac 303 10)).setModifier (F32.ofFrac 100 1) false)
      (F32.ofFrac 5 1) 0 (F32.ofFrac 100 1) (F32.ofFrac 5 1)
      (DynamicStat.ofBaseModifiedCurrent (10 : Int) 20 15) (-8)
      ⟨by decide, by decide⟩ (by decide) ⟨by decide, by decide⟩).2.1,
    (DynamicStat.inv_preserved
      ((DynamicStat.ofBase (F32.ofFrac 303 10)).setModifier (F32.ofFrac 100 1) false)
      (F32.ofFrac 5 1) 0 (F32.ofFrac 100 1) (F32.ofFrac 5 1)
      (DynamicStat.ofBaseModifiedCurrent (10 : Int) 20 15) (-8)
      ⟨by decide, by decide⟩ (by decide) ⟨by decide, by decide⟩).2.2.2.2.2⟩

/-- C4, counterexample: on `DynamicStat<int>` with base 10, modified 10 and
current 20 (above the ceiling, as a fortify leaves it), `setCurrent(30)` with
`allowIncreaseAboveModified = false` has `30 > getModified() = 10` and leaves
`getCurrent()` at 20, not at the ceiling; `setCurrent(15)` lowers it to 15,
still above the ceiling. -/
theorem DynamicStat.setCurrent_above_ceiling_counterexample :
    (DynamicStat.ofBaseModifiedCurrent (10 : Int) 10 20).getModified = 10 ∧
    (10 : Int) < 30 ∧
    ((DynamicStat.ofBaseModifiedCurrent (10 : Int) 10 20).setCurrent 30 false false).getCurrent
      = 20 ∧
    ((DynamicStat.ofBaseModifiedCurrent (10 : Int) 10 20).setCurrent 30 false false).getCurrent
      ≠ (DynamicStat.ofBaseModifiedCurrent (10 : Int) 10 20).getModified ∧
    ((DynamicStat.ofBaseModifiedCurrent (10 : Int) 10 20).setCurrent 15 false false).getCurrent
      = 15 := by
  decide

/-- C4, amended: from a state with `getCurrent() ≤ getModified()`, for every
value above the ceiling `getModified()`, `setCurrent(value,
allowDecreaseBelowZero, false)` leaves `getCurrent()` equal to `getModified()`,
and the ceiling itself is unchanged. -/
theorem DynamicStat.setCurrent_clamps_to_ceiling (d : DynamicStat T) (value : T)
    (allowDecreaseBelowZero : Bool)
    (hc : d.getCurrent ≤ d.getModified) (hv : d.getModified < value) :
    (d.setCurrent value allowDecreaseBelowZero false).getCurrent = d.getModified ∧
    (d.setCurrent value allowDecreaseBelowZero false).getModified = d.getModified := by
  obtain ⟨s, c⟩ := d
  simp only [DynamicStat.setCurrent, DynamicStat.getModified, DynamicStat.getCurrent,
    gt_iff_lt, Bool.false_eq_true, or_false] at hc hv ⊢
  rw [if_pos (lt_of_le_of_lt hc hv), if_neg (not_le.mpr hv), if_neg (not_lt.mpr hc),
    if_pos hv]
  exact ⟨rfl, rfl⟩

/-- Witness of C4 (amended) on `DynamicStat<int>`: base 10, modified 10,
current 4 and `setCurrent(1000, false, false)`. -/
theorem DynamicStat.setCurrent_clamps_to_ceiling_witness :
    (DynamicStat.ofBaseModifiedCurrent (10 : Int) 10 4).getCurrent
      ≤ (DynamicStat.ofBaseModifiedCurrent (10 : Int) 10 4).getModified ∧
    (DynamicStat.ofBaseModifiedCurrent (10 : Int) 10 4).getModified < 1000 ∧
    ((DynamicStat.ofBaseModifiedCurrent (10 : Int) 10 4).setCurrent 1000 false false).getCurrent
      = (DynamicStat.ofBaseModifiedCurrent (10 : Int) 10 4).getModified :=
  ⟨by decide, by decide,
    (DynamicStat.setCurrent_clamps_to_ceiling (DynamicStat.ofBaseModifiedCurrent (10 : Int) 10 4)
      1000 false (by decide) (by decide)).1⟩

/-- C5: `setCurrent` is idempotent: for every state, every value `x` and every
pair of flags, applying `setCurrent(x, flags)` twice gives the same state as
applying it once. -/
theorem DynamicStat.setCurrent_idempotent (d : DynamicStat T) (x : T)
    (allowDecreaseBelowZero allowIncreaseAboveModified : Bool) :
    (d.setCurrent x allowDecreaseBelowZero allowIncreaseAboveModified).setCurrent x
        allowDecreaseBelowZero allowIncreaseAboveModified =
      d.setCurrent x allowDecreaseBelowZero allowIncreaseAboveModified := by
  apply DynamicStat.setCurrent_fixed
  obtain ⟨s, c⟩ := d
  simp only [DynamicStat.setCurrent, DynamicStat.getModified, gt_iff_lt]
  by_cases h1 : c < x
  · rw [if_pos h1]
    by_cases h2 : x ≤ s.getModified ∨ allowIncreaseAboveModified = true
    · rw [if_pos h2]
      exact Or.inl rfl
    · rw [if_neg h2]
      have h3 : s.getModified < x := not_le.mp (fun h => h2 (Or.inl h))
      by_cases h4 : s.getModified < c
      · rw [if_pos h4]
        exact Or.inr (Or.inl ⟨h1, h2, le_of_lt h4⟩)
      · rw [if_neg h4, if_pos h3]
        exact Or.inr (Or.inl ⟨h3, h2, le_refl _⟩)
  · rw [if_neg h1]
    by_cases h2 : 0 < x ∨ allowDecreaseBelowZero = true
    · rw [if_pos h2]
      exact Or.inl rfl
    · rw [if_neg h2]
      by_cases h3 : 0 < c
      · rw [if_pos h3]
        exact Or.inr (Or.inr ⟨fun h => h2 (Or.inl h), h2, le_refl _⟩)
      · rw [if_neg h3]
        exact Or.inr (Or.inr ⟨h1, h2, not_lt.mp h3⟩)

end DynamicStatTheorems

/-! ## Theorems about `AttributeValue` -/

section AttributeValueTheorems

/-- The conversion to `int` of a non-negative `float` is its floor. -/
theorem floatToInt_of_nonneg (x : CFloat) (h : 0 ≤ x) : floatToInt x = Int.floor x := by
  simp only [floatToInt, if_pos h]

/-- The conversion to `int` of a negative `float` is not positive. -/
theorem floatToInt_of_neg (x : CFloat) (h : x < 0) : floatToInt x ≤ 0 := by
  simp only [floatToInt, if_neg (not_le.mpr h)]
  exact Int.ceil_le.mpr (by simpa using le_of_lt h)

/-- The result of `AttributeValue::getModified` is never negative. -/
theorem AttributeValue.attribute_modified_nonneg (a : AttributeValue) : 0 ≤ a.getModified := by
  simp only [AttributeValue.getModified, stdMax_eq_max]
  exact le_max_left _ _

/-- C6, the code at the failing input: with base 50, damage 10, modifier -20
and restoreModifier 0 (the state that `setBase(50)`, `setModifier(0, 20)` and
`damage(10)` produce from a default-constructed value), `restore(15)` clears
the damage and sets
`restoreModifier` to the whole amount 15, where the leftover after repaying the
damage is `max(0, 15 - 10) = 5` and `min(0 + 5, 20) = 5`; on the spec's own
example (damage 10, modifier -5, restoreModifier 0) the cap at `-modifier`
makes the two agree: `restore(3)` gives damage 7 and restoreModifier 0,
`restore(15)` gives damage 0 and restoreModifier 5. -/
theorem AttributeValue.restore_adds_whole_amount :
    (((AttributeValue.new.setBase 50).setModifier 0 20).damage 10)
      = AttributeValue.mk 50 (-20) 0 10 ∧
    ((AttributeValue.mk 50 (-20) 0 10).restore 15).getDamage = 0 ∧
    ((AttributeValue.mk 50 (-20) 0 10).restore 15).getRestoreModifier = 15 ∧
    min ((0 : CFloat) + max 0 (15 - 10)) (-(-20)) = 5 ∧
    ((AttributeValue.mk 50 (-5) 0 10).restore 3).getDamage = 7 ∧
    ((AttributeValue.mk 50 (-5) 0 10).restore 3).getRestoreModifier = 0 ∧
    ((AttributeValue.mk 50 (-5) 0 10).restore 15).getDamage = 0 ∧
    ((AttributeValue.mk 50 (-5) 0 10).restore 15).getRestoreModifier = 5 := by
  norm_num [AttributeValue.restore, AttributeValue.getDamage,
    AttributeValue.getRestoreModifier, AttributeValue.new, AttributeValue.setBase,
    AttributeValue.setModifier, AttributeValue.damage, AttributeValue.getModified,
    AttributeValue.modifiedSum, stdMin, stdMax, floatToInt, intToFloat]

end AttributeValueTheorems

/-! ## Save and load -/

section SaveTheorems

variable {T : Type} [LinearOrderedCommRing T]

/-- C9: for every attribute value `a` and every skill value `k`, `writeState`
followed by `readState` into another instance (a fresh one or any other) gives
an instance with the same `getBase()`, `getDamage()` and
`getRestoreModifier()`, and for the skill value also the same
`getProgress()`. -/
theorem AttributeValue.attribute_save_round_trip (a b : AttributeValue) (k l : SkillValue)
    (state : ESM.StatState Int) :
    (b.readState (a.writeState state)).getBase = a.getBase ∧
    (b.readState (a.writeState state)).getDamage = a.getDamage ∧
    (b.readState (a.writeState state)).getRestoreModifier = a.getRestoreModifier ∧
    (l.readState (k.writeState state)).getBase = k.getBase ∧
    (l.readState (k.writeState state)).getDamage = k.getDamage ∧
    (l.readState (k.writeState state)).getRestoreModifier = k.getRestoreModifier ∧
    (l.readState (k.writeState state)).getProgress = k.getProgress :=
  ⟨rfl, rfl, rfl, rfl, rfl, rfl, rfl⟩

end SaveTheorems

/-! ## The bounds of `AttributeValue` -/

section BoundsTheorems

/-- C10, counterexample: base 0, modifier -5, restoreModifier 5, damage 0
satisfies the bounds, and after `setModifier(3, 5)`, with `3 ≥ 0` and `5 ≥ 0`,
the modifier is -2 and the restore credit is still 5, above `-modifier = 2`. -/
theorem AttributeValue.setModifier_bounds_counterexample :
    (AttributeValue.mk 0 (-5) 5 0).Bounds ∧ (0 : CFloat) ≤ 3 ∧ (0 : CFloat) ≤ 5 ∧
    ((AttributeValue.mk 0 (-5) 5 0).setModifier 3 5).getModifier = -2 ∧
    ((AttributeValue.mk 0 (-5) 5 0).setModifier 3 5).getRestoreModifier = 5 ∧
    ¬ ((AttributeValue.mk 0 (-5) 5 0).setModifier 3 5).Bounds := by
  norm_num [AttributeValue.Bounds, AttributeValue.setModifier, AttributeValue.getModifier,
    AttributeValue.getRestoreModifier]

/-- C10, amended: the bounds `base ≥ 0`, `damage ≥ 0`, `restoreModifier ≥ 0`,
and `restoreModifier ≤ -modifier` whenever `modifier < 0`, hold for a
default-constructed value and are preserved by `setBase(b)`, by `damage(a)`
and `restore(a)` with `a ≥ 0`, and by `setModifier(0, negative)` with
`negative ≥ 0`; `setModifier(positive, negative)` with `positive, negative ≥ 0`
keeps `base ≥ 0`, `damage ≥ 0` and `restoreModifier ≥ 0` and leaves
`restoreModifier ≤ negative`. -/
theorem AttributeValue.bounds_preserved (a : AttributeValue) (b : Int)
    (positive negative amount : CFloat)
    (h : a.Bounds) (_hp : 0 ≤ positive) (hn : 0 ≤ negative) (ha : 0 ≤ amount) :
    AttributeValue.new.Bounds ∧
    (a.setBase b).Bounds ∧
    (a.damage amount).Bounds ∧
    (a.restore amount).Bounds ∧
    (a.setModifier 0 negative).Bounds ∧
    (0 ≤ (a.setModifier positive negative).getBase ∧
      0 ≤ (a.setModifier positive negative).getDamage ∧
      0 ≤ (a.setModifier positive negative).getRestoreModifier ∧
      (a.setModifier positive negative).getRestoreModifier ≤ negative) := by
  obtain ⟨base, m, r, d⟩ := a
  obtain ⟨hb, hd, hr, hm⟩ := h
  simp only at hb hd hr hm
  refine ⟨?_, ?_, ?_, ?_, ?_, ?_⟩
  · simp [AttributeValue.Bounds, AttributeValue.new]
  · refine ⟨?_, hd, hr, hm⟩
    simp only [AttributeValue.setBase, stdMax_eq_max]
    exact le_max_left _ _
  · refine ⟨hb, ?_, hr, hm⟩
    simp only [AttributeValue.damage, stdMin_eq_min]
    have h1 : (0 : CFloat) ≤ intToFloat (AttributeValue.getModified ⟨base, m, r, d⟩) := by
      simp only [intToFloat]
      exact_mod_cast AttributeValue.attribute_modified_nonneg _
    have h2 := le_min ha h1
    linarith
  · have h1 : 0 ≤ d - min d amount := sub_nonneg.mpr (min_le_left _ _)
    simp only [AttributeValue.restore, stdMin_eq_min, gt_iff_lt]
    by_cases c1 : m < 0 ∧ 0 < amount - d
    · rw [if_pos c1]
      by_cases c2 : -m < r + amount
      · rw [if_pos c2]
        exact ⟨hb, h1, by simp only; linarith [c1.1], fun _ => le_refl _⟩
      · rw [if_neg c2]
        exact ⟨hb, h1, by simp only; linarith, fun _ => not_lt.mp c2⟩
    · rw [if_neg c1]
      exact ⟨hb, h1, hr, hm⟩
  · simp only [AttributeValue.setModifier, gt_iff_lt, zero_sub]
    by_cases c1 : negative < r
    · rw [if_pos c1]
      exact ⟨hb, hd, hn, fun _ => by simp⟩
    · rw [if_neg c1]
      exact ⟨hb, hd, hr, fun _ => by simpa using not_lt.mp c1⟩
  · simp only [AttributeValue.setModifier, AttributeValue.getBase, AttributeValue.getDamage,
      AttributeValue.getRestoreModifier, gt_iff_lt]
    by_cases c1 : negative < r
    · rw [if_pos c1]
      exact ⟨hb, hd, hn, le_refl _⟩
    · rw [if_neg c1]
      exact ⟨hb, hd, hr, not_lt.mp c1⟩

/-- Witness of C10 (amended): base 40, modifier -5, restoreModifier 2,
damage 3 satisfies the bounds, with `setModifier(3, 5)` and the amount 4. -/
theorem AttributeValue.bounds_preserved_witness :
    (AttributeValue.mk 40 (-5) 2 3).Bounds ∧
    (0 : CFloat) ≤ 3 ∧ (0 : CFloat) ≤ 5 ∧ (0 : CFloat) ≤ 4 ∧
    ((AttributeValue.mk 40 (-5) 2 3).restore 4).Bounds :=
  ⟨by norm_num [AttributeValue.Bounds], by norm_num, by norm_num, by norm_num,
    (AttributeValue.bounds_preserved (AttributeValue.mk 40 (-5) 2 3) (-7) 3 5 4
      (by norm_num [AttributeValue.Bounds]) (by norm_num) (by norm_num) (by norm_num)).2.2.2.1⟩

end BoundsTheorems

/-! ## Further theorems about `Stat<T>` -/

section StatLayerTheorems

set_option maxRecDepth 100000

variable {T : Type} [LinearOrder T] [Zero T] [Add T] [Sub T]
variable {R : Type} [LinearOrderedCommRing R]

/-- Two scalar stats with the same three members are the same. -/
theorem Stat.eq_of_members {S : Type} (s t : Stat S) (h1 : s.mBase = t.mBase)
    (h2 : s.mModified = t.mModified) (h3 : s.mCurrentModified = t.mCurrentModified) :
    s = t := by
  obtain ⟨b, m, c⟩ := s
  obtain ⟨b2, m2, c2⟩ := t
  simp only at h1 h2 h3
  rw [h1, h2, h3]

/-- C11, counterexample: on `Stat<int>` with base 10 and modified 14 (so
currentModified 14 and `getCurrentModifier() == 0`), `set(20)` gives base 20,
modified 20 and currentModified 24, so `getCurrentModifier()` is 4 after the
call and was 0 before it. -/
theorem Stat.set_currentModifier_counterexample :
    (Stat.ofBaseModified (10 : Int) 14).getCurrentModifier = 0 ∧
    ((Stat.ofBaseModified (10 : Int) 14).set 20).getBase = 20 ∧
    ((Stat.ofBaseModified (10 : Int) 14).set 20).mModified = 20 ∧
    ((Stat.ofBaseModified (10 : Int) 14).set 20).getCurrentModified = 24 ∧
    ((Stat.ofBaseModified (10 : Int) 14).set 20).getCurrentModifier = 4 ∧
    ((Stat.ofBaseModified (10 : Int) 14).set 20).getCurrentModifier
      ≠ (Stat.ofBaseModified (10 : Int) 14).getCurrentModifier := by
  decide

/-- On `Stat<float>` the shift by `v - oldBase` is rounded: `Stat(30.3f)`
after `setCurrentModifier(0.2f)` has modifier 0 and `getCurrentModified() -
getBase() == getCurrentModifier() == 0.200000763`; after `set(1000.7f)` both
are `0.200012207`. -/
theorem Stat.set_rounding_example :
    ((Stat.ofBase (F32.ofFrac 303 10)).setCurrentModifier (F32.ofFrac 2 10)).getModifier = 0 ∧
    ((Stat.ofBase (F32.ofFrac 303 10)).setCurrentModifier (F32.ofFrac 2 10)).getCurrentModifier
      = F32.ofFrac 200000763 1000000000 ∧
    (((Stat.ofBase (F32.ofFrac 303 10)).setCurrentModifier (F32.ofFrac 2 10)).set
      (F32.ofFrac 10007 10)).getCurrentModifier = F32.ofFrac 200012207 1000000000 ∧
    (((Stat.ofBase (F32.ofFrac 303 10)).setCurrentModifier (F32.ofFrac 2 10)).set
      (F32.ofFrac 10007 10)).getCurrentModifier
      ≠ ((Stat.ofBase (F32.ofFrac 303 10)).setCurrentModifier
        (F32.ofFrac 2 10)).getCurrentModifier := by
  decide

/-- C11, amended. For every instantiation of `Stat<T>` and every value `v`,
`set(v)` rebases base and modified to `v` and adds `v - oldBase` to
currentModified. In exact arithmetic (`Stat<int>`),
`getCurrentModified() - getBase()` is therefore the same after the call as
before it; `getCurrentModifier()` after the call is the old
`getCurrentModifier()` plus the old `getModifier()`, and so it is the same as
before exactly when the old modifier was 0. -/
theorem Stat.set_rebases (t : Stat T) (w : T) (s : Stat R) (v : R) :
    ((t.set w).getBase = w ∧
      (t.set w).mModified = w ∧
      (t.set w).getCurrentModified = t.getCurrentModified + (w - t.getBase)) ∧
    (s.set v).getCurrentModified - (s.set v).getBase = s.getCurrentModified - s.getBase ∧
    (s.set v).getCurrentModifier = s.getCurrentModifier + s.getModifier ∧
    ((s.set v).getCurrentModifier = s.getCurrentModifier ↔ s.getModifier = 0) := by
  have e : (s.set v).getCurrentModifier = s.getCurrentModifier + s.getModifier := by
    simp only [Stat.set, Stat.getCurrentModifier, Stat.getModifier]
    ring
  refine ⟨⟨rfl, rfl, rfl⟩, ?_, e, ?_⟩
  · simp only [Stat.set, Stat.getCurrentModified, Stat.getBase]
    ring
  · rw [e]
    constructor
    · intro h
      linarith
    · intro h
      rw [h, add_zero]

/-- C12, counterexample: on `Stat<float>`, `Stat(10)` after
`setModifier(0.1f)` has modified `10 + 0.1f`, rounded to 10.1000004, and
`getModifier()` returns `10.1000004 - 10 = 0.100000381`, not
`0.1f = 0.100000001`. -/
theorem Stat.setModifier_rounding_counterexample :
    ((Stat.ofBase (F32.ofFrac 10 1)).setModifier (F32.ofFrac 1 10)).mModified
      = F32.ofFrac 101000004 10000000 ∧
    ((Stat.ofBase (F32.ofFrac 10 1)).setModifier (F32.ofFrac 1 10)).getModifier
      = F32.ofFrac 100000381 1000000000 ∧
    ((Stat.ofBase (F32.ofFrac 10 1)).setModifier (F32.ofFrac 1 10)).getModifier
      ≠ F32.ofFrac 1 10 := by
  decide

/-- C12, amended: `setModifier` replaces and `getModified` clamps only on read.
For every instantiation of `Stat<T>`, `setModifier(a)` followed by
`setModifier(b)` gives the same state as `setModifier(b)` alone, in which
`getBase()` and `getCurrentModified()` are as before,
`getModified() == max(0, base + b)` and `getModifier() == (base + b) - base`.
In exact arithmetic (`Stat<int>`) `getModifier() == b`; on `Stat<int>` with
base 5, `setModifier(-8)` gives `getModified() == 0` while `getModifier()` is
still -8. -/
theorem Stat.setModifier_replaces (t : Stat T) (a b : T) (s : Stat R) (c : R) :
    ((t.setModifier a).setModifier b = t.setModifier b ∧
      (t.setModifier b).getBase = t.getBase ∧
      (t.setModifier b).getCurrentModified = t.getCurrentModified ∧
      (t.setModifier b).getModified = max 0 (t.getBase + b) ∧
      (t.setModifier b).getModifier = (t.getBase + b) - t.getBase) ∧
    (s.setModifier c).getModifier = c ∧
    ((Stat.ofBase (5 : Int)).setModifier (-8)).getModified = 0 ∧
    ((Stat.ofBase (5 : Int)).setModifier (-8)).getModifier = -8 := by
  refine ⟨⟨rfl, rfl, rfl, ?_, rfl⟩, ?_, by decide, by decide⟩
  · simp only [Stat.setModifier, Stat.getModified, Stat.getBase, stdMax_eq_max]
  · simp only [Stat.setModifier, Stat.getModifier]
    ring

/-- C18, counterexample: on `Stat<float>` with base 30.2999992 and modified
130.300003 (`Stat(30.3f)` after `setModifier(100)`), `setModified(0, 0, 100)`
leaves the base at `-2^(-18)`, whereas the clamped base is 0 and `setBase(0)`
leaves the base at 0; and on `Stat(30.3f)` after `setModifier(0.1f)`,
`setModified(50.7f, 0, 100)` changes `getModifier()` from `0.100000381` to
`0.100002289`. -/
theorem Stat.setModified_setBase_rounding_counterexample :
    ((Stat.ofBase (F32.ofFrac 303 10)).setModifier (F32.ofFrac 100 1)).clampedBase
      0 0 (F32.ofFrac 100 1) = 0 ∧
    (((Stat.ofBase (F32.ofFrac 303 10)).setModifier (F32.ofFrac 100 1)).setBase 0).getBase
      = 0 ∧
    (((Stat.ofBase (F32.ofFrac 303 10)).setModifier (F32.ofFrac 100 1)).setModified
      0 0 (F32.ofFrac 100 1)).getBase = F32.ofFrac (-1) 262144 ∧
    ((Stat.ofBase (F32.ofFrac 303 10)).setModifier (F32.ofFrac 100 1)).setModified
      0 0 (F32.ofFrac 100 1)
      ≠ ((Stat.ofBase (F32.ofFrac 303 10)).setModifier (F32.ofFrac 100 1)).setBase
        (((Stat.ofBase (F32.ofFrac 303 10)).setModifier (F32.ofFrac 100 1)).clampedBase
          0 0 (F32.ofFrac 100 1)) ∧
    ((Stat.ofBase (F32.ofFrac 303 10)).setModifier (F32.ofFrac 1 10)).getModifier
      = F32.ofFrac 100000381 1000000000 ∧
    (((Stat.ofBase (F32.ofFrac 303 10)).setModifier (F32.ofFrac 1 10)).setModified
      (F32.ofFrac 507 10) 0 (F32.ofFrac 100 1)).getModifier
      = F32.ofFrac 100002289 1000000000 ∧
    (((Stat.ofBase (F32.ofFrac 303 10)).setModifier (F32.ofFrac 1 10)).setModified
      (F32.ofFrac 507 10) 0 (F32.ofFrac 100 1)).getModifier
      ≠ ((Stat.ofBase (F32.ofFrac 303 10)).setModifier (F32.ofFrac 1 10)).getModifier := by
  refine ⟨by decide, by decide, by decide, ?_, by decide, by decide, by decide⟩
  intro h
  have hb := congrArg Stat.getBase h
  revert hb
  decide

/-- C18, amended: in exact arithmetic (`Stat<int>`), `setModified` is a clamped
`setBase`: for every state and every `value`, `min`, `max`,
`setModified(value, min, max)` gives exactly the state that `setBase(c)` gives,
where `c` is `oldBase + (value - oldModified)` replaced by `min` if it is below
`min` and otherwise by `max` if it is above `max`; so `setModified` leaves
`getModifier()` and `getCurrentModifier()` as they were, also when the base is
clamped. -/
theorem Stat.setModified_eq_setBase_clamped (s : Stat R) (value min max : R) :
    s.setModified value min max = s.setBase (s.clampedBase value min max) ∧
    (s.setModified value min max).getModifier = s.getModifier ∧
    (s.setModified value min max).getCurrentModifier = s.getCurrentModifier := by
  have e : s.setModified value min max = s.setBase (s.clampedBase value min max) := by
    simp only [Stat.setModified, Stat.clampedBase, gt_iff_lt]
    by_cases h1 : s.mBase + (value - s.mModified) < min
    · simp only [if_pos h1]
      apply Stat.eq_of_members <;> simp only [Stat.setBase] <;> ring
    · by_cases h2 : max < s.mBase + (value - s.mModified)
      · simp only [if_neg h1, if_pos h2]
        apply Stat.eq_of_members <;> simp only [Stat.setBase] <;> ring
      · simp only [if_neg h1, if_neg h2]
        apply Stat.eq_of_members <;> simp only [Stat.setBase] <;> ring
  refine ⟨e, ?_, ?_⟩
  · rw [e]
    simp only [Stat.setBase, Stat.getModifier]
    ring
  · rw [e]
    simp only [Stat.setBase, Stat.getCurrentModifier]
    ring

end StatLayerTheorems

/-! ## Further theorems about `AttributeValue` -/

section AttributeBaseTheorems

/-- C13: for every attribute value and every integer `b`, after `setBase(b)`
`getBase() == max(0, b)`, and `getModifier()`, `getRestoreModifier()` and
`getDamage()` are as before. -/
theorem AttributeValue.setBase_clamps (a : AttributeValue) (b : Int) :
    (a.setBase b).getBase = max 0 b ∧
    (a.setBase b).getModifier = a.getModifier ∧
    (a.setBase b).getRestoreModifier = a.getRestoreModifier ∧
    (a.setBase b).getDamage = a.getDamage := by
  refine ⟨?_, rfl, rfl, rfl⟩
  simp only [AttributeValue.setBase, AttributeValue.getBase, stdMax_eq_max]

end AttributeBaseTheorems

/-! ## Further theorems about `DynamicStat<T>` -/

section PooledAuxiliary

variable {T : Type} [LinearOrder T] [Zero T] [Add T] [Sub T]

/-- The call `setCurrent` never touches the inner scalar stat. -/
theorem DynamicStat.setCurrent_mStatic (d : DynamicStat T) (v : T) (a b : Bool) :
    (d.setCurrent v a b).mStatic = d.mStatic := by
  unfold DynamicStat.setCurrent
  split_ifs <;> rfl

/-- The test `mCurrent > getModified()` followed by the assignment
`mCurrent = getModified()` keeps the inner scalar stat and leaves the smaller
of `mCurrent` and `getModified()` in `mCurrent`. -/
theorem DynamicStat.clamp_down (d : DynamicStat T) :
    (if d.mCurrent > d.getModified then { d with mCurrent := d.getModified } else d).mStatic
      = d.mStatic ∧
    (if d.mCurrent > d.getModified then { d with mCurrent := d.getModified } else d).mCurrent
      = min d.mCurrent d.getModified := by
  by_cases h : d.mCurrent > d.getModified
  · rw [if_pos h]
    exact ⟨rfl, (min_eq_right (le_of_lt h)).symm⟩
  · rw [if_neg h]
    exact ⟨rfl, (min_eq_left (not_lt.mp h)).symm⟩

/-- Without override flags, from a state with `0 ≤ current` in which an
increase starts at or below the ceiling and a decrease to a positive value ends
at or below it, `setCurrent(v)` leaves `min(max(v, 0), getModified())` in
`current`. -/
theorem DynamicStat.setCurrent_current_of (d : DynamicStat T) (v : T)
    (h0 : 0 ≤ d.mCurrent)
    (hup : d.mCurrent < v → d.mCurrent ≤ d.getModified)
    (hdown : v ≤ d.mCurrent → 0 < v → v ≤ d.getModified) :
    (d.setCurrent v false false).mCurrent = min (max v 0) d.getModified := by
  have hM := d.ceiling_nonneg
  obtain ⟨s, c⟩ := d
  simp only [DynamicStat.setCurrent, DynamicStat.getModified, gt_iff_lt,
    Bool.false_eq_true, or_false] at h0 hup hdown hM ⊢
  by_cases h1 : c < v
  · have hv : 0 ≤ v := le_of_lt (lt_of_le_of_lt h0 h1)
    rw [if_pos h1, max_eq_left hv]
    by_cases h2 : v ≤ s.getModified
    · rw [if_pos h2, min_eq_left h2]
    · rw [if_neg h2, if_neg (not_lt.mpr (hup h1)), if_pos (not_le.mp h2),
        min_eq_right (le_of_lt (not_le.mp h2))]
  · rw [if_neg h1]
    by_cases h2 : 0 < v
    · rw [if_pos h2, max_eq_left (le_of_lt h2), min_eq_left (hdown (not_lt.mp h1) h2)]
    · rw [if_neg h2, max_eq_right (not_lt.mp h2), min_eq_left hM]
      by_cases h3 : 0 < c
      · rw [if_pos h3]
      · rw [if_neg h3]
        exact le_antisymm (not_lt.mp h3) h0

/-- With `allowIncreaseAboveModified = false`, `setCurrent` leaves `current` at
or below the ceiling whenever it was at or below it. -/
theorem DynamicStat.setCurrent_le_ceiling (d : DynamicStat T) (v : T) (a : Bool)
    (h1 : d.mCurrent ≤ d.getModified) :
    (d.setCurrent v a false).mCurrent ≤ d.getModified := by
  have hM := d.ceiling_nonneg
  obtain ⟨s, c⟩ := d
  simp only [DynamicStat.setCurrent, DynamicStat.getModified, gt_iff_lt,
    Bool.false_eq_true, or_false] at h1 hM ⊢
  by_cases c1 : c < v
  · rw [if_pos c1]
    by_cases c2 : v ≤ s.getModified
    · rw [if_pos c2]
      exact c2
    · rw [if_neg c2, if_neg (not_lt.mpr h1), if_pos (not_le.mp c2)]
  · rw [if_neg c1]
    by_cases c2 : 0 < v ∨ a = true
    · rw [if_pos c2]
      exact le_trans (not_lt.mp c1) h1
    · rw [if_neg c2]
      by_cases c3 : 0 < c
      · rw [if_pos c3]
        exact hM
      · rw [if_neg c3]
        exact h1

/-- For a modifier `m > 0` whose shifted value `current + (m -
getCurrentModifier())` is not below `current`, `setCurrentModifier(m, allow)`
stores the shifted value in `current`, whatever the ceiling, and leaves the base
and the ceiling alone. -/
theorem DynamicStat.setCurrentModifier_shift (d : DynamicStat T) (m : T) (allow : Bool)
    (hm : 0 < m)
    (hinc : d.getCurrent ≤ d.getCurrent + (m - d.mStatic.getCurrentModifier)) :
    (d.setCurrentModifier m allow).getCurrent
      = d.getCurrent + (m - d.mStatic.getCurrentModifier) ∧
    (d.setCurrentModifier m allow).getBase = d.getBase ∧
    (d.setCurrentModifier m allow).getModified = d.getModified := by
  have ht : decide (m > 0) = true := decide_eq_true hm
  have hs : (d.setCurrentModifier m allow).mStatic = d.mStatic.setCurrentModifier m := by
    simp only [DynamicStat.setCurrentModifier, DynamicStat.setCurrent_mStatic]
  refine ⟨?_, ?_, ?_⟩
  · simp only [DynamicStat.getCurrent] at hinc
    simp only [DynamicStat.setCurrentModifier, ht, DynamicStat.getCurrent]
    rcases lt_or_eq_of_le hinc with hlt | heq
    · simp only [DynamicStat.setCurrent, gt_iff_lt, or_true, if_true, if_pos hlt]
    · rw [DynamicStat.setCurrent_fixed
        (DynamicStat.mk (d.mStatic.setCurrentModifier m) d.mCurrent) _ allow true
        (Or.inl heq)]
      exact heq
  · simp only [DynamicStat.getBase, hs]
    rfl
  · simp only [DynamicStat.getModified, hs]
    rfl

end PooledAuxiliary

section PooledTheorems

set_option maxRecDepth 100000

variable {T : Type} [LinearOrder T] [Zero T] [Add T] [Sub T]
variable {R : Type} [LinearOrderedCommRing R]

/-- C14: `setBase(v)` and `setModified(value, min, max)` of the pooled stat
update the inner scalar exactly as the scalar operation of the same name does,
and then only clamp downward: the new `getCurrent()` is
`min(oldCurrent, new getModified())`, so `current` is not raised and is at most
`getModified()` afterwards. -/
theorem DynamicStat.setBase_setModified_clamp_down (d : DynamicStat T)
    (v value min max : T) :
    (d.setBase v).mStatic = d.mStatic.setBase v ∧
    (d.setBase v).getCurrent = Min.min d.getCurrent (d.setBase v).getModified ∧
    (d.setBase v).getCurrent ≤ d.getCurrent ∧
    (d.setBase v).getCurrent ≤ (d.setBase v).getModified ∧
    (d.setModified value min max).mStatic = d.mStatic.setModified value min max ∧
    (d.setModified value min max).getCurrent
      = Min.min d.getCurrent (d.setModified value min max).getModified ∧
    (d.setModified value min max).getCurrent ≤ d.getCurrent ∧
    (d.setModified value min max).getCurrent ≤ (d.setModified value min max).getModified := by
  obtain ⟨e1, e2⟩ := DynamicStat.clamp_down { d with mStatic := d.mStatic.setBase v }
  obtain ⟨e3, e4⟩ :=
    DynamicStat.clamp_down { d with mStatic := d.mStatic.setModified value min max }
  have b1 : (d.setBase v).mStatic = d.mStatic.setBase v := e1
  have b2 : (d.setBase v).getCurrent = Min.min d.getCurrent (d.setBase v).getModified := by
    simp only [DynamicStat.getModified, b1]
    exact e2
  have m1 : (d.setModified value min max).mStatic = d.mStatic.setModified value min max := e3
  have m2 : (d.setModified value min max).getCurrent
      = Min.min d.getCurrent (d.setModified value min max).getModified := by
    simp only [DynamicStat.getModified, m1]
    exact e4
  refine ⟨b1, b2, ?_, ?_, m1, m2, ?_, ?_⟩
  · rw [b2]
    exact min_le_left _ _
  · rw [b2]
    exact min_le_right _ _
  · rw [m2]
    exact min_le_left _ _
  · rw [m2]
    exact min_le_right _ _

/-- C15, counterexample: on `DynamicStat<float>`, `DynamicStat(0.1f)` after
`setModifier(1.5f, false)` has base 0.100000001, modified 1.60000002 and
current 1.60000002, so the internal modified value is `≥ 0` and
`0 ≤ current ≤ getModified()`. `setModifier(2.7f, false)` computes
`diff = 2.7f - 1.5 = 1.20000005` and `current + diff = 2.80000019`, above the
new ceiling `base + 2.7f = 2.79999995`, and stores the ceiling: `getCurrent()`
is not `max(0, oldCurrent + (m - oldModifier))`. From `DynamicStat(0.1f)` after
`setModifier(0.1f, false)` (current equal to the ceiling, gap 0), raising the
modifier by 10 leaves current at 10.1999998 under the ceiling 10.2000008: the
gap is not kept. -/
theorem DynamicStat.setModifier_shift_rounding_counterexample :
    0 ≤ ((DynamicStat.ofBase (F32.ofFrac 1 10)).setModifier (F32.ofFrac 15 10)
      false).mStatic.mModified ∧
    ((DynamicStat.ofBase (F32.ofFrac 1 10)).setModifier (F32.ofFrac 15 10) false).Inv ∧
    (((DynamicStat.ofBase (F32.ofFrac 1 10)).setModifier (F32.ofFrac 15 10)
      false).setModifier (F32.ofFrac 27 10) false).getCurrent
      ≠ max 0
        (((DynamicStat.ofBase (F32.ofFrac 1 10)).setModifier (F32.ofFrac 15 10)
          false).getCurrent
          + (F32.ofFrac 27 10
            - ((DynamicStat.ofBase (F32.ofFrac 1 10)).setModifier (F32.ofFrac 15 10)
              false).mStatic.getModifier)) ∧
    0 ≤ ((DynamicStat.ofBase (F32.ofFrac 1 10)).setModifier (F32.ofFrac 1 10)
      false).mStatic.mModified ∧
    ((DynamicStat.ofBase (F32.ofFrac 1 10)).setModifier (F32.ofFrac 1 10) false).Inv ∧
    (((DynamicStat.ofBase (F32.ofFrac 1 10)).setModifier (F32.ofFrac 1 10)
      false).setModifier
        (((DynamicStat.ofBase (F32.ofFrac 1 10)).setModifier (F32.ofFrac 1 10)
          false).mStatic.getModifier + F32.ofFrac 10 1) false).getModified
      - (((DynamicStat.ofBase (F32.ofFrac 1 10)).setModifier (F32.ofFrac 1 10)
        false).setModifier
          (((DynamicStat.ofBase (F32.ofFrac 1 10)).setModifier (F32.ofFrac 1 10)
            false).mStatic.getModifier + F32.ofFrac 10 1) false).getCurrent
      ≠ ((DynamicStat.ofBase (F32.ofFrac 1 10)).setModifier (F32.ofFrac 1 10)
          false).getModified
        - ((DynamicStat.ofBase (F32.ofFrac 1 10)).setModifier (F32.ofFrac 1 10)
          false).getCurrent := by
  unfold DynamicStat.Inv
  decide

/-- C15, amended: in exact arithmetic (`DynamicStat<int>`), `setModifier` of
the pooled stat shifts `current` by the modifier delta: from a state whose
internal modified value is `≥ 0` and with `0 ≤ current ≤ getModified()`, after
`setModifier(m, false)` `getCurrent() == max(0, oldCurrent + (m -
oldModifier))`; raising the modifier by `k ≥ 0` (by 10, say) raises `current`
by exactly `k` and keeps the gap `getModified() - getCurrent()` as it was. -/
theorem DynamicStat.setModifier_shifts_current (d : DynamicStat R) (m k : R)
    (hm : 0 ≤ d.mStatic.mModified) (h0 : 0 ≤ d.getCurrent)
    (h1 : d.getCurrent ≤ d.getModified) (hk : 0 ≤ k) :
    (d.setModifier m false).getCurrent = max 0 (d.getCurrent + (m - d.mStatic.getModifier)) ∧
    (d.setModifier (d.mStatic.getModifier + k) false).getCurrent = d.getCurrent + k ∧
    (d.setModifier (d.mStatic.getModifier + k) false).getModified
        - (d.setModifier (d.mStatic.getModifier + k) false).getCurrent
      = d.getModified - d.getCurrent := by
  have hM : d.getModified = d.mStatic.mModified := by
    simp only [DynamicStat.getModified, Stat.getModified, stdMax_eq_max]
    exact max_eq_right hm
  rw [hM] at h1
  simp only [DynamicStat.getCurrent] at h0 h1
  have key : ∀ n : R,
      (d.setModifier n false).getCurrent = max 0 (d.getCurrent + (n - d.mStatic.getModifier)) ∧
      (d.setModifier n false).getModified = max 0 (d.mStatic.mBase + n) := by
    intro n
    have hup : d.mCurrent < d.mCurrent + (n - d.mStatic.getModifier) →
        d.mCurrent ≤ max 0 (d.mStatic.mBase + n) := by
      intro h2
      simp only [Stat.getModifier] at h2
      refine le_trans ?_ (le_max_right _ _)
      linarith
    have hle : d.mCurrent + (n - d.mStatic.getModifier) ≤ d.mStatic.mBase + n := by
      simp only [Stat.getModifier]
      linarith
    have hdown : d.mCurrent + (n - d.mStatic.getModifier) ≤ d.mCurrent →
        0 < d.mCurrent + (n - d.mStatic.getModifier) →
        d.mCurrent + (n - d.mStatic.getModifier) ≤ max 0 (d.mStatic.mBase + n) :=
      fun _ _ => le_trans hle (le_max_right _ _)
    have hmod : (DynamicStat.mk (d.mStatic.setModifier n) d.mCurrent).getModified
        = max 0 (d.mStatic.mBase + n) := by
      simp only [DynamicStat.getModified, Stat.getModified, Stat.setModifier, stdMax_eq_max]
    have hcur := DynamicStat.setCurrent_current_of
      (DynamicStat.mk (d.mStatic.setModifier n) d.mCurrent)
      (d.mCurrent + (n - d.mStatic.getModifier)) h0
      (by rw [hmod]; exact hup) (by rw [hmod]; exact hdown)
    rw [hmod] at hcur
    constructor
    · simp only [DynamicStat.setModifier, defaultAllowIncreaseAboveModified,
        DynamicStat.getCurrent]
      rw [hcur, max_comm 0, min_eq_left (max_le_max hle (le_refl 0)), max_comm]
    · simp only [DynamicStat.setModifier, defaultAllowIncreaseAboveModified,
        DynamicStat.getModified, DynamicStat.setCurrent_mStatic]
      exact hmod
  obtain ⟨k1, k2⟩ := key (d.mStatic.getModifier + k)
  have c1 : (d.setModifier (d.mStatic.getModifier + k) false).getCurrent = d.getCurrent + k := by
    rw [k1, add_sub_cancel_left]
    exact max_eq_right (add_nonneg h0 hk)
  refine ⟨(key m).1, c1, ?_⟩
  rw [c1, k2, hM]
  have e : d.mStatic.mBase + (d.mStatic.getModifier + k) = d.mStatic.mModified + k := by
    simp only [Stat.getModifier]
    ring
  rw [e, max_eq_right (add_nonneg hm hk)]
  simp only [DynamicStat.getCurrent]
  ring

/-- Witness of C15 on `DynamicStat<int>`: base 10, modified 20 (modifier 10),
current 15, and the modifier raised by 10 to 20: `current` becomes 25. -/
theorem DynamicStat.setModifier_shifts_current_witness :
    (0 : Int) ≤ (DynamicStat.ofBaseModifiedCurrent (10 : Int) 20 15).mStatic.mModified ∧
    (0 : Int) ≤ (DynamicStat.ofBaseModifiedCurrent (10 : Int) 20 15).getCurrent ∧
    (DynamicStat.ofBaseModifiedCurrent (10 : Int) 20 15).getCurrent
      ≤ (DynamicStat.ofBaseModifiedCurrent (10 : Int) 20 15).getModified ∧
    (0 : Int) ≤ 10 ∧
    ((DynamicStat.ofBaseModifiedCurrent (10 : Int) 20 15).setModifier
      ((DynamicStat.ofBaseModifiedCurrent (10 : Int) 20 15).mStatic.getModifier + 10)
      false).getCurrent
      = (DynamicStat.ofBaseModifiedCurrent (10 : Int) 20 15).getCurrent + 10 :=
  ⟨by decide, by decide, by decide, by decide,
    (DynamicStat.setModifier_shifts_current (DynamicStat.ofBaseModifiedCurrent (10 : Int) 20 15)
      3 10 (by decide) (by decide) (by decide) (by decide)).2.1⟩

/-- C16: a non-positive current-modifier never pushes `current` over the
ceiling: from a state with `getCurrent() ≤ getModified()`, for every modifier
`m ≤ 0` and either value of `allowCurrentToDecreaseBelowZero`, after
`setCurrentModifier(m, allow)` it still holds that
`getCurrent() ≤ getModified()`, the ceiling being the one before the call. -/
theorem DynamicStat.setCurrentModifier_nonpositive_le_ceiling (d : DynamicStat T) (m : T)
    (allowCurrentToDecreaseBelowZero : Bool)
    (h1 : d.getCurrent ≤ d.getModified) (hm : m ≤ 0) :
    (d.setCurrentModifier m allowCurrentToDecreaseBelowZero).getCurrent
      ≤ (d.setCurrentModifier m allowCurrentToDecreaseBelowZero).getModified ∧
    (d.setCurrentModifier m allowCurrentToDecreaseBelowZero).getModified = d.getModified := by
  have hf : decide (m > 0) = false := decide_eq_false (not_lt.mpr hm)
  have e : (d.setCurrentModifier m allowCurrentToDecreaseBelowZero).getModified
      = d.getModified := by
    simp only [DynamicStat.setCurrentModifier, DynamicStat.getModified,
      DynamicStat.setCurrent_mStatic]
    rfl
  refine ⟨?_, e⟩
  rw [e]
  simp only [DynamicStat.setCurrentModifier, hf, DynamicStat.getCurrent]
  exact DynamicStat.setCurrent_le_ceiling
    (DynamicStat.mk (d.mStatic.setCurrentModifier m) d.mCurrent) _ _ h1

/-- Witness of C16 on `DynamicStat<int>`: base 10, modified 10, current 6 under
a drain of 4 (currentModified 6, set by `setCurrentModifier(-4)`); removing the
drain with `setCurrentModifier(0)` raises `current` to 10, not above. -/
theorem DynamicStat.setCurrentModifier_nonpositive_le_ceiling_witness :
    ((DynamicStat.ofBase (10 : Int)).setCurrentModifier (-4) false).getCurrent
      ≤ ((DynamicStat.ofBase (10 : Int)).setCurrentModifier (-4) false).getModified ∧
    (0 : Int) ≤ 0 ∧
    ((DynamicStat.ofBase (10 : Int)).setCurrentModifier (-4) false).getCurrent = 6 ∧
    ((((DynamicStat.ofBase (10 : Int)).setCurrentModifier (-4) false).setCurrentModifier
      0 false).getCurrent
      ≤ (((DynamicStat.ofBase (10 : Int)).setCurrentModifier (-4) false).setCurrentModifier
      0 false).getModified) :=
  ⟨by decide, by decide, by decide,
    (DynamicStat.setCurrentModifier_nonpositive_le_ceiling
      ((DynamicStat.ofBase (10 : Int)).setCurrentModifier (-4) false) 0 false
      (by decide) (by decide)).1⟩

/-- C17, counterexample: on `DynamicStat<float>`, `DynamicStat(30.3f)` has
`getCurrentModifier() == 0`; with `m = 0.1f > 0` and `delta = 0.1f > 0`,
`setCurrentModifier(0.1f, false)` stores `currentModified = 30.2999992 + 0.1f`,
rounded to 30.3999996, so that `getCurrentModifier()` is `0.100000381`, not
`0.1f = 0.100000001`. -/
theorem DynamicStat.setCurrentModifier_rounding_counterexample :
    0 < F32.ofFrac 1 10 ∧
    0 < F32.ofFrac 1 10 - (DynamicStat.ofBase (F32.ofFrac 303 10)).mStatic.getCurrentModifier ∧
    ((DynamicStat.ofBase (F32.ofFrac 303 10)).setCurrentModifier (F32.ofFrac 1 10)
      false).mStatic.getCurrentModifier = F32.ofFrac 100000381 1000000000 ∧
    ((DynamicStat.ofBase (F32.ofFrac 303 10)).setCurrentModifier (F32.ofFrac 1 10)
      false).mStatic.getCurrentModifier ≠ F32.ofFrac 1 10 := by
  decide

/-- C17, amended: a positive current-modifier may overshoot the ceiling. For
every instantiation of `DynamicStat<T>`, every state and every modifier
`m > 0` for which the shifted value `oldCurrent + delta`, with
`delta = m - getCurrentModifier()` as the stat computes them, is not below
`oldCurrent`: after `setCurrentModifier(m, allow)` `getCurrent()` is exactly
`oldCurrent + delta`, also when that exceeds `getModified()`, and `getBase()`
and `getModified()` are as before. In exact arithmetic (`DynamicStat<int>`),
for every `m > 0` with `delta > 0`, `getCurrent() == oldCurrent + delta`,
`getBase()` and `getModified()` are as before, and
`getCurrentModifier() == m`. -/
theorem DynamicStat.setCurrentModifier_positive_overshoots (d : DynamicStat T) (m : T)
    (allowCurrentToDecreaseBelowZero : Bool)
    (e : DynamicStat R) (n : R) (allowCurrentToDecrease : Bool)
    (hm : 0 < m)
    (hinc : d.getCurrent ≤ d.getCurrent + (m - d.mStatic.getCurrentModifier))
    (hn : 0 < n) (hd : 0 < n - e.mStatic.getCurrentModifier) :
    ((d.setCurrentModifier m allowCurrentToDecreaseBelowZero).getCurrent
        = d.getCurrent + (m - d.mStatic.getCurrentModifier) ∧
      (d.setCurrentModifier m allowCurrentToDecreaseBelowZero).getBase = d.getBase ∧
      (d.setCurrentModifier m allowCurrentToDecreaseBelowZero).getModified = d.getModified) ∧
    (e.setCurrentModifier n allowCurrentToDecrease).getCurrent
      = e.getCurrent + (n - e.mStatic.getCurrentModifier) ∧
    (e.setCurrentModifier n allowCurrentToDecrease).getBase = e.getBase ∧
    (e.setCurrentModifier n allowCurrentToDecrease).getModified = e.getModified ∧
    (e.setCurrentModifier n allowCurrentToDecrease).mStatic.getCurrentModifier = n := by
  have hinc2 : e.getCurrent ≤ e.getCurrent + (n - e.mStatic.getCurrentModifier) :=
    le_of_lt (lt_add_of_pos_right _ hd)
  obtain ⟨g1, g2, g3⟩ :=
    DynamicStat.setCurrentModifier_shift d m allowCurrentToDecreaseBelowZero hm hinc
  obtain ⟨x1, x2, x3⟩ :=
    DynamicStat.setCurrentModifier_shift e n allowCurrentToDecrease hn hinc2
  refine ⟨⟨g1, g2, g3⟩, x1, x2, x3, ?_⟩
  have hs : (e.setCurrentModifier n allowCurrentToDecrease).mStatic
      = e.mStatic.setCurrentModifier n := by
    simp only [DynamicStat.setCurrentModifier, DynamicStat.setCurrent_mStatic]
  rw [hs]
  simp only [Stat.setCurrentModifier, Stat.getCurrentModifier]
  ring

/-- Witness of C17 (amended): on `DynamicStat<float>`, `DynamicStat(30.3f)` and
`setCurrentModifier(0.1f)`, where `0.1f > 0` and the shifted value
`30.2999992 + 0.1f` is not below 30.2999992; on `DynamicStat<int>`, base 10,
modified 10, current 10 and `setCurrentModifier(5)`, where `5 > 0` and
`delta = 5 > 0`: `current` becomes 15, above the ceiling 10. -/
theorem DynamicStat.setCurrentModifier_positive_overshoots_witness :
    0 < F32.ofFrac 1 10 ∧
    (DynamicStat.ofBase (F32.ofFrac 303 10)).getCurrent
      ≤ (DynamicStat.ofBase (F32.ofFrac 303 10)).getCurrent
        + (F32.ofFrac 1 10
          - (DynamicStat.ofBase (F32.ofFrac 303 10)).mStatic.getCurrentModifier) ∧
    (0 : Int) < 5 ∧
    (0 : Int) < 5 - (DynamicStat.ofBase (10 : Int)).mStatic.getCurrentModifier ∧
    ((DynamicStat.ofBase (10 : Int)).setCurrentModifier 5 false).getCurrent
      = (DynamicStat.ofBase (10 : Int)).getCurrent
        + (5 - (DynamicStat.ofBase (10 : Int)).mStatic.getCurrentModifier) ∧
    ((DynamicStat.ofBase (10 : Int)).setCurrentModifier 5 false).getCurrent = 15 ∧
    ((DynamicStat.ofBase (10 : Int)).setCurrentModifier 5 false).getModified = 10 :=
  ⟨by decide, by decide, by decide, by decide,
    (DynamicStat.setCurrentModifier_positive_overshoots
      (DynamicStat.ofBase (F32.ofFrac 303 10)) (F32.ofFrac 1 10) false
      (DynamicStat.ofBase (10 : Int)) 5 false
      (by decide) (by decide) (by decide) (by decide)).2.1, by decide, by decide⟩

/-- C19: without override flags `setCurrent` is a clamp: from a state with
`0 ≤ current ≤ getModified()`, for every value `v`, `setCurrent(v, false,
false)` sets `getCurrent()` to `min(max(v, 0), getModified())` and leaves
`getBase()`, `getModified()` and `getCurrentModified()` as they were. -/
theorem DynamicStat.setCurrent_is_clamp (d : DynamicStat T) (v : T)
    (h0 : 0 ≤ d.getCurrent) (h1 : d.getCurrent ≤ d.getModified) :
    (d.setCurrent v false false).getCurrent = min (max v 0) d.getModified ∧
    (d.setCurrent v false false).getBase = d.getBase ∧
    (d.setCurrent v false false).getModified = d.getModified ∧
    (d.setCurrent v false false).getCurrentModified = d.getCurrentModified := by
  refine ⟨?_, ?_, ?_, ?_⟩
  · exact d.setCurrent_current_of v h0 (fun _ => h1) (fun h2 _ => le_trans h2 h1)
  · simp only [DynamicStat.getBase, DynamicStat.setCurrent_mStatic]
  · simp only [DynamicStat.getModified, DynamicStat.setCurrent_mStatic]
  · simp only [DynamicStat.getCurrentModified, DynamicStat.setCurrent_mStatic]

/-- Witness of C19 on `DynamicStat<int>`: base 10, modified 20, current 15;
`setCurrent(-3, false, false)` leaves `current` at 0. -/
theorem DynamicStat.setCurrent_is_clamp_witness :
    (0 : Int) ≤ (DynamicStat.ofBaseModifiedCurrent (10 : Int) 20 15).getCurrent ∧
    (DynamicStat.ofBaseModifiedCurrent (10 : Int) 20 15).getCurrent
      ≤ (DynamicStat.ofBaseModifiedCurrent (10 : Int) 20 15).getModified ∧
    ((DynamicStat.ofBaseModifiedCurrent (10 : Int) 20 15).setCurrent (-3) false false).getCurrent
      = min (max (-3) 0) (DynamicStat.ofBaseModifiedCurrent (10 : Int) 20 15).getModified ∧
    ((DynamicStat.ofBaseModifiedCurrent (10 : Int) 20 15).setCurrent (-3) false false).getCurrent
      = 0 :=
  ⟨by decide, by decide,
    (DynamicStat.setCurrent_is_clamp (DynamicStat.ofBaseModifiedCurrent (10 : Int) 20 15) (-3)
      (by decide) (by decide)).1, by decide⟩

end PooledTheorems

/-! ## `restore` never lowers an attribute -/

section RestoreTheorems

/-- The conversion of a `float` to `int` is monotone. -/
theorem floatToInt_mono (x y : CFloat) (h : x ≤ y) : floatToInt x ≤ floatToInt y := by
  rcases le_or_lt 0 x with hx | hx
  · rw [floatToInt_of_nonneg x hx, floatToInt_of_nonneg y (le_trans hx h)]
    exact Int.floor_mono h
  · rcases le_or_lt 0 y with hy | hy
    · rw [floatToInt_of_nonneg y hy]
      exact le_trans (floatToInt_of_neg x hx) (Int.floor_nonneg.mpr hy)
    · simp only [floatToInt, if_neg (not_le.mpr hx), if_neg (not_le.mpr hy)]
      exact Int.ceil_mono h

/-- The result of `AttributeValue::getModified` is monotone in the sum
`base - damage + modifier + restoreModifier`. -/
theorem AttributeValue.getModified_mono (a b : AttributeValue)
    (h : a.modifiedSum ≤ b.modifiedSum) : a.getModified ≤ b.getModified := by
  simp only [AttributeValue.getModified, stdMax_eq_max]
  exact max_le_max (le_refl 0) (floatToInt_mono _ _ h)

/-- C20: `restore` never lowers an attribute: for every attribute value with
`damage ≥ 0` and with `restoreModifier ≤ -modifier` whenever `modifier < 0`,
and every amount `a ≥ 0`, `getModified()` after `restore(a)` is at least
`getModified()` before it, `getDamage()` does not increase and
`getRestoreModifier()` does not decrease. -/
theorem AttributeValue.restore_never_lowers (a : AttributeValue) (amount : CFloat)
    (hd : 0 ≤ a.getDamage)
    (hr : a.getModifier < 0 → a.getRestoreModifier ≤ -a.getModifier)
    (ha : 0 ≤ amount) :
    a.getModified ≤ (a.restore amount).getModified ∧
    (a.restore amount).getDamage ≤ a.getDamage ∧
    a.getRestoreModifier ≤ (a.restore amount).getRestoreModifier := by
  obtain ⟨base, m, r, d⟩ := a
  simp only [AttributeValue.getDamage, AttributeValue.getModifier,
    AttributeValue.getRestoreModifier] at hd hr
  have h1 : 0 ≤ min d amount := le_min hd ha
  have key : ((AttributeValue.mk base m r d).restore amount).mBase = base ∧
      ((AttributeValue.mk base m r d).restore amount).mModifier = m ∧
      ((AttributeValue.mk base m r d).restore amount).mDamage = d - min d amount ∧
      r ≤ ((AttributeValue.mk base m r d).restore amount).mRestoreModifier := by
    simp only [AttributeValue.restore, stdMin_eq_min, gt_iff_lt]
    by_cases c1 : m < 0 ∧ 0 < amount - d
    · rw [if_pos c1]
      by_cases c2 : -m < r + amount
      · rw [if_pos c2]
        exact ⟨rfl, rfl, rfl, hr c1.1⟩
      · rw [if_neg c2]
        exact ⟨rfl, rfl, rfl, le_add_of_nonneg_right ha⟩
    · rw [if_neg c1]
      exact ⟨rfl, rfl, rfl, le_refl _⟩
  obtain ⟨k1, k2, k3, k4⟩ := key
  refine ⟨?_, ?_, k4⟩
  · apply AttributeValue.getModified_mono
    simp only [AttributeValue.modifiedSum, k1, k2, k3]
    linarith
  · simp only [AttributeValue.getDamage, k3]
    linarith

/-- Witness of C20: base 50, modifier -5, restoreModifier 0, damage 10, where
`getModified()` is 35, and `restore(15)`, after which it is 50. -/
theorem AttributeValue.restore_never_lowers_witness :
    (0 : CFloat) ≤ (AttributeValue.mk 50 (-5) 0 10).getDamage ∧
    (0 : CFloat) ≤ 15 ∧
    (AttributeValue.mk 50 (-5) 0 10).getModified = 35 ∧
    ((AttributeValue.mk 50 (-5) 0 10).restore 15).getModified = 50 ∧
    (AttributeValue.mk 50 (-5) 0 10).getModified
      ≤ ((AttributeValue.mk 50 (-5) 0 10).restore 15).getModified :=
  ⟨by norm_num [AttributeValue.getDamage], by norm_num,
    by norm_num [AttributeValue.getModified, AttributeValue.modifiedSum, stdMax,
      floatToInt, intToFloat],
    by norm_num [AttributeValue.restore, AttributeValue.getModified,
      AttributeValue.modifiedSum, stdMax, stdMin, floatToInt, intToFloat],
    (AttributeValue.restore_never_lowers (AttributeValue.mk 50 (-5) 0 10) 15
      (by norm_num [AttributeValue.getDamage])
      (by norm_num [AttributeValue.getModifier, AttributeValue.getRestoreModifier])
      (by norm_num)).1⟩

end RestoreTheorems

/-! ## `damage` in binary32 -/

section DamageTheorems

set_option maxRecDepth 100000

/-- One is a positive number of units. -/
theorem F32.scale_pos : 0 < F32.scale := by
  decide

/-- The smaller of two binary32 numbers has the smaller number of units. -/
theorem F32.stdMin_units (a b : F32) : (stdMin a b).units = min a.units b.units := by
  rw [stdMin_eq_min]
  rcases le_total a b with h | h
  · rw [min_eq_left h, min_eq_left (show a.units ≤ b.units from h)]
  · rw [min_eq_right h, min_eq_right (show b.units ≤ a.units from h)]

/-- When the sum computed by `getModified()` is not negative, `getModified()`
is the whole part of that sum. -/
theorem AttributeValue32.getModified_of_nonneg (a : AttributeValue32)
    (h : 0 ≤ a.modifiedSum.units) :
    a.getModified = a.modifiedSum.units / F32.scale := by
  simp only [AttributeValue32.getModified, F32.toInt, if_pos h, stdMax_eq_max]
  exact max_eq_right (Int.ediv_nonneg h (le_of_lt F32.scale_pos))

/-- When the sum computed by `getModified()` is negative, `getModified()` is
zero. -/
theorem AttributeValue32.getModified_of_neg (a : AttributeValue32)
    (h : a.modifiedSum.units < 0) :
    a.getModified = 0 := by
  simp only [AttributeValue32.getModified, F32.toInt, if_neg (not_le.mpr h), stdMax_eq_max]
  apply max_eq_left
  have h1 : 0 ≤ (-a.modifiedSum.units) / F32.scale :=
    Int.ediv_nonneg (by omega) (le_of_lt F32.scale_pos)
  omega

/-- C7, counterexample: from a default-constructed value, `setBase(3)` and ten
calls of `damage(0.1f)` leave `mDamage` at `1 + 2^(-23) = 1.00000012`, where
the sum is `3 - 1.00000012 = 1.99999988` and `getModified()` is 1. Then
`damage(1000)`, with `1000 ≥ getModified()`, adds `min(1000, 1) = 1`: the sum
`2.00000012` rounds to 2, so the damage grows by less than 1, the new sum is 1
and the new `getModified()` is 1, not 0. -/
theorem AttributeValue32.damage_rounding_counterexample :
    Nat.iterate (fun a => AttributeValue32.damage a (F32.ofFrac 1 10)) 10
      (AttributeValue32.new.setBase 3)
      = AttributeValue32.mk 3 0 0 (F32.ofFrac 8388609 8388608) ∧
    (0 : F32) ≤ F32.ofFrac 1000 1 ∧
    (AttributeValue32.mk 3 0 0 (F32.ofFrac 8388609 8388608)).getModified = 1 ∧
    F32.ofInt (AttributeValue32.mk 3 0 0 (F32.ofFrac 8388609 8388608)).getModified
      ≤ F32.ofFrac 1000 1 ∧
    ((AttributeValue32.mk 3 0 0 (F32.ofFrac 8388609 8388608)).damage
      (F32.ofFrac 1000 1)).getDamage = F32.ofFrac 2 1 ∧
    ((AttributeValue32.mk 3 0 0 (F32.ofFrac 8388609 8388608)).damage
      (F32.ofFrac 1000 1)).getDamage.units
      - (AttributeValue32.mk 3 0 0 (F32.ofFrac 8388609 8388608)).getDamage.units
      < 1 * F32.scale ∧
    ((AttributeValue32.mk 3 0 0 (F32.ofFrac 8388609 8388608)).damage
      (F32.ofFrac 1000 1)).getModified = 1 ∧
    ((AttributeValue32.mk 3 0 0 (F32.ofFrac 8388609 8388608)).damage
      (F32.ofFrac 1000 1)).getModified ≠ 0 := by
  decide

/-- C7, amended: for every attribute value and every amount `a ≥ 0` for which
the `float` operations involved do not round (the sum computed by
`getModified()` is the exact value of `base - damage + modifier +
restoreModifier` before and after the call, the conversion of `getModified()`
to `float` is exact, and so is the addition to `mDamage`), `damage(a)`
increases `getDamage()` by exactly `min(a, getModified())`, with
`getModified()` read before the call; if the sum was `≥ 0` before the call it
is `≥ 0` after it; and when `a ≥ getModified()` the new `getModified()` is 0.
Values are compared in units of `2^(-149)`, of which `F32.scale` make 1. -/
theorem AttributeValue32.damage_capped_when_exact (a : AttributeValue32) (amount : F32)
    (_h : 0 ≤ amount)
    (hs : a.SumExact)
    (hg : F32.ExactOfInt a.getModified)
    (hd : F32.ExactAdd a.mDamage (stdMin amount (F32.ofInt a.getModified)))
    (hs2 : (a.damage amount).SumExact) :
    (a.damage amount).getDamage.units
      = a.getDamage.units + min amount.units (a.getModified * F32.scale) ∧
    (0 ≤ a.modifiedSum → 0 ≤ (a.damage amount).modifiedSum) ∧
    (F32.ofInt a.getModified ≤ amount → (a.damage amount).getModified = 0) := by
  have hU := F32.scale_pos
  have hx : (stdMin amount (F32.ofInt a.getModified)).units
      = min amount.units (a.getModified * F32.scale) := by
    rw [F32.stdMin_units, hg]
  have hdam : (a.damage amount).mDamage.units
      = a.mDamage.units + min amount.units (a.getModified * F32.scale) := by
    have e : (a.damage amount).mDamage
        = a.mDamage + stdMin amount (F32.ofInt a.getModified) := rfl
    rw [e, hd, hx]
  have hsum : (a.damage amount).modifiedSum.units
      = a.modifiedSum.units - min amount.units (a.getModified * F32.scale) := by
    have e1 : (a.damage amount).mBase = a.mBase := rfl
    have e2 : (a.damage amount).mModifier = a.mModifier := rfl
    have e3 : (a.damage amount).mRestoreModifier = a.mRestoreModifier := rfl
    have h1 := hs2
    have h2 := hs
    unfold AttributeValue32.SumExact at h1 h2
    rw [e1, e2, e3, hdam] at h1
    omega
  refine ⟨hdam, ?_, ?_⟩
  · intro h0
    have h0u : 0 ≤ a.modifiedSum.units := h0
    show (0 : F32).units ≤ (a.damage amount).modifiedSum.units
    have hG := a.getModified_of_nonneg h0u
    have h3 : a.modifiedSum.units / F32.scale * F32.scale ≤ a.modifiedSum.units :=
      Int.ediv_mul_le _ (ne_of_gt hU)
    have h4 : min amount.units (a.getModified * F32.scale) ≤ a.getModified * F32.scale :=
      min_le_right _ _
    rw [hG] at h4
    have hz : (0 : F32).units = 0 := rfl
    rw [hsum, hz, hG]
    omega
  · intro hle
    have hle2 : a.getModified * F32.scale ≤ amount.units := by
      have h5 : (F32.ofInt a.getModified).units ≤ amount.units := hle
      rw [hg] at h5
      exact h5
    have hmin : min amount.units (a.getModified * F32.scale) = a.getModified * F32.scale :=
      min_eq_right hle2
    rw [hmin] at hsum
    rcases le_or_lt 0 a.modifiedSum.units with h0 | h0
    · have hG := a.getModified_of_nonneg h0
      have e : (a.damage amount).modifiedSum.units = a.modifiedSum.units % F32.scale := by
        rw [hsum, hG]
        have := Int.ediv_add_emod' a.modifiedSum.units F32.scale
        omega
      have hnn : 0 ≤ (a.damage amount).modifiedSum.units := by
        rw [e]
        exact Int.emod_nonneg _ (ne_of_gt hU)
      rw [AttributeValue32.getModified_of_nonneg _ hnn, e]
      exact Int.ediv_eq_zero_of_lt (Int.emod_nonneg _ (ne_of_gt hU))
        (Int.emod_lt_of_pos _ hU)
    · have hG := a.getModified_of_neg h0
      rw [hG, zero_mul, sub_zero] at hsum
      exact AttributeValue32.getModified_of_neg _ (by rw [hsum]; exact h0)

/-- Witness of C7 (amended): base 50, modifier -20, restoreModifier 0,
damage 10.5, where the sum is 19.5 and `getModified()` is 19, and `damage(25)`
with `0 ≤ 25`; no operation rounds, the damage grows by 19 to 29.5 and the new
`getModified()` is 0. -/
theorem AttributeValue32.damage_capped_when_exact_witness :
    (0 : F32) ≤ F32.ofFrac 25 1 ∧
    (AttributeValue32.mk 50 (F32.ofFrac (-20) 1) 0 (F32.ofFrac 21 2)).SumExact ∧
    F32.ExactOfInt (AttributeValue32.mk 50 (F32.ofFrac (-20) 1) 0 (F32.ofFrac 21 2)).getModified ∧
    F32.ExactAdd (AttributeValue32.mk 50 (F32.ofFrac (-20) 1) 0 (F32.ofFrac 21 2)).mDamage
      (stdMin (F32.ofFrac 25 1)
        (F32.ofInt
          (AttributeValue32.mk 50 (F32.ofFrac (-20) 1) 0 (F32.ofFrac 21 2)).getModified)) ∧
    ((AttributeValue32.mk 50 (F32.ofFrac (-20) 1) 0 (F32.ofFrac 21 2)).damage
      (F32.ofFrac 25 1)).SumExact ∧
    (AttributeValue32.mk 50 (F32.ofFrac (-20) 1) 0 (F32.ofFrac 21 2)).getModified = 19 ∧
    ((AttributeValue32.mk 50 (F32.ofFrac (-20) 1) 0 (F32.ofFrac 21 2)).damage
      (F32.ofFrac 25 1)).getDamage = F32.ofFrac 59 2 ∧
    ((AttributeValue32.mk 50 (F32.ofFrac (-20) 1) 0 (F32.ofFrac 21 2)).damage
      (F32.ofFrac 25 1)).getModified = 0 :=
  ⟨by decide,
    by unfold AttributeValue32.SumExact; decide,
    by unfold F32.ExactOfInt; decide,
    by unfold F32.ExactAdd; decide,
    by unfold AttributeValue32.SumExact; decide,
    by decide, by decide,
    (AttributeValue32.damage_capped_when_exact
      (AttributeValue32.mk 50 (F32.ofFrac (-20) 1) 0 (F32.ofFrac 21 2)) (F32.ofFrac 25 1)
      (by decide)
      (by unfold AttributeValue32.SumExact; decide)
      (by unfold F32.ExactOfInt; decide)
      (by unfold F32.ExactAdd; decide)
      (by unfold AttributeValue32.SumExact; decide)).2.2 (by decide)⟩

end DamageTheorems

end MWMechanics
